import Mathlib

/-!
The PYPYLOG tracing gate of `pypy/translator/c/src/debug.h`

A shallow embedding of the C header: the process-wide variables become the
fields of `State`, every C function becomes a function `State → State`, and
the calls the code makes into the C library (`getenv`, `fopen`, `fprintf`)
are appended to `State.effects` in the order in which they happen.

Conventions of the embedding:

* a C string is the list of its bytes before the terminating NUL, so no
  element of a `CStr` is NUL;
* `pypy_ignoring_nested_prints` is a C `int`; it is an `Int` here, which is the
  C arithmetic as long as fewer than `2^31` sections are open at once (beyond
  that the C increment overflows and has no defined behaviour);
* `malloc` in `pypy_debug_open` is taken to succeed;
* the value read by `READ_TIMESTAMP` is supplied by the environment.
-/

namespace PyPyDebug

/-! ## C strings -/

/-- A byte of a C string other than the terminating NUL. -/
abbrev CChar := { b : Nat // 0 < b ∧ b < 256 }

/-- A NUL-terminated C string, given by its bytes before the NUL. -/
abbrev CStr := List CChar

/-- The C string denoted by a literal: its characters up to 255, NUL excluded. -/
def cstr (s : String) : CStr :=
  s.toList.filterMap fun ch =>
    if h : 0 < ch.toNat ∧ ch.toNat < 256 then some ⟨ch.toNat, h⟩ else none

/-- The character `':'`. -/
def colon : CChar := ⟨58, by decide⟩

/-- The string `"-"`. -/
def str_dash : CStr := [⟨45, by decide⟩]

/-- The string `"w"`, the mode passed to `fopen`. -/
def str_w : CStr := [⟨119, by decide⟩]

/-- The string `"start"`. -/
def str_start : CStr :=
  [⟨115, by decide⟩, ⟨116, by decide⟩, ⟨97, by decide⟩, ⟨114, by decide⟩, ⟨116, by decide⟩]

/-- The string `"stop"`. -/
def str_stop : CStr :=
  [⟨115, by decide⟩, ⟨116, by decide⟩, ⟨111, by decide⟩, ⟨112, by decide⟩]

/-- C library `strchr(s, c)` for a non-NUL `c`: the offset of the first
occurrence of `c` in `s`, or `none` for the NULL result. -/
def strchr : CStr → CChar → Option Nat
  | [], _ => none
  | b :: bs, c => if b = c then some 0 else (strchr bs c).map (· + 1)

/-- Source lines 95-101.  The loop ends with 1 when `*substr` is the NUL; it
ends with 0 at the first position where `*str` and `*substr` differ, which
is also the case when `*str` is the terminating NUL of `str` (the byte of
`substr` there is not NUL). -/
def startswith : CStr → CStr → Bool
  | _, [] => true
  | [], _ :: _ => false
  | a :: str, b :: substr => if a ≠ b then false else startswith str substr

/-! ## Process state and environment -/

/-- A C `FILE *` other than NULL. -/
inductive FILE where
  /-- The standard error stream. -/
  | stderr
  /-- The stream returned by a successful `fopen(filename, mode)`. -/
  | opened (filename mode : CStr)
  deriving DecidableEq, Repr

/-- A call into the C library made by the code. -/
inductive Effect where
  /-- The call `getenv("PYPYLOG")`. -/
  | getenv
  /-- The call `fopen(filename, mode)`. -/
  | fopen (filename mode : CStr)
  /-- The call `fprintf(file, "{%llx} -%s- %s\n", timestamp, start, category)`;
  `file` is `none` when the stream passed is NULL. -/
  | fprintf (file : Option FILE) (timestamp : Int) (start category : CStr)
  deriving DecidableEq, Repr

/-- What the process finds outside itself. -/
structure Env where
  /-- The result of `getenv("PYPYLOG")`, `none` for NULL. -/
  PYPYLOG : Option CStr
  /-- Whether `fopen(filename, "w")` succeeds. -/
  fopen_ok : CStr → Bool
  /-- The value `READ_TIMESTAMP` stores, given how many library calls the
  process has made so far. -/
  rdtsc : Nat → Int

/-- The variables of source lines 49-53, and the library calls made so far. -/
structure State where
  pypy_ignoring_nested_prints : Int
  pypy_debug_file : Option FILE
  debug_ready : Bool
  debug_profile : Bool
  debug_prefix : Option CStr
  effects : List Effect
  deriving DecidableEq, Repr

/-- The initial process state: the initialisers of source lines 49-53. -/
def init : State where
  pypy_ignoring_nested_prints := 0
  pypy_debug_file := none
  debug_ready := false
  debug_profile := false
  debug_prefix := none
  effects := []

/-- Appends a library call to the history. -/
def State.emit (s : State) (e : Effect) : State :=
  { s with effects := s.effects ++ [e] }

/-! ## The functions of the header -/

/-- C library `fopen(filename, mode)`: the stream, or `none` for NULL. -/
def fopen (env : Env) (filename mode : CStr) : Option FILE :=
  if env.fopen_ok filename then some (FILE.opened filename mode) else none

/-- Source lines 60-74, run when `PYPYLOG` is set and not empty: the
assignments to `debug_profile` and `debug_prefix`, together with the value of
the local `filename` at line 75 (the destination). -/
def pypy_debug_open_mode (filename : CStr) (s : State) : State × CStr :=
  match strchr filename colon with
  | none => ({ s with debug_profile := true }, filename)
  | some n => ({ s with debug_prefix := some (filename.take n) }, filename.drop (n + 1))

/-- Source lines 75-76. -/
def pypy_debug_open_file (env : Env) (filename : CStr) (s : State) : State :=
  if filename ≠ str_dash then
    { s.emit (Effect.fopen filename str_w) with pypy_debug_file := fopen env filename str_w }
  else s

/-- Source lines 55-81. -/
def pypy_debug_open (env : Env) (s : State) : State :=
  let s1 := s.emit Effect.getenv
  let s2 :=
    match env.PYPYLOG with
    | some (b :: bs) =>
      let r := pypy_debug_open_mode (b :: bs) s1
      pypy_debug_open_file env r.2 r.1
    | _ => s1
  let s3 :=
    if s2.pypy_debug_file.isNone then { s2 with pypy_debug_file := some FILE.stderr } else s2
  { s3 with debug_ready := true }

/-- Source lines 83-87. -/
def pypy_debug_ensure_opened (env : Env) (s : State) : State :=
  if !s.debug_ready then pypy_debug_open env s else s

/-- Source lines 103-108. -/
def display_startstop (env : Env) (start category : CStr) (s : State) : State :=
  let timestamp := env.rdtsc s.effects.length
  s.emit (Effect.fprintf s.pypy_debug_file timestamp start category)

/-- Source lines 110-136. -/
def pypy_debug_start (env : Env) (category : CStr) (s : State) : State :=
  if s.debug_profile then
    let s1 := pypy_debug_ensure_opened env s
    let s2 := { s1 with pypy_ignoring_nested_prints := s1.pypy_ignoring_nested_prints + 1 }
    display_startstop env str_start category s2
  else if s.pypy_ignoring_nested_prints > 0 then
    { s with pypy_ignoring_nested_prints := s.pypy_ignoring_nested_prints + 1 }
  else
    let s1 := pypy_debug_ensure_opened env s
    match s1.debug_prefix with
    | none => { s1 with pypy_ignoring_nested_prints := 1 }
    | some p =>
      if !startswith category p then { s1 with pypy_ignoring_nested_prints := 1 }
      else display_startstop env str_start category s1

/-- Source lines 138-147. -/
def pypy_debug_stop (env : Env) (category : CStr) (s : State) : State :=
  if s.pypy_ignoring_nested_prints > 0 then
    let s1 := { s with pypy_ignoring_nested_prints := s.pypy_ignoring_nested_prints - 1 }
    if !s1.debug_profile then s1 else display_startstop env str_stop category s1
  else display_startstop env str_stop category s

/-- Source lines 24-25, the macro `PYPY_HAVE_DEBUG_PRINTS`: its value and the
state after evaluating it. -/
def PYPY_HAVE_DEBUG_PRINTS (env : Env) (s : State) : Bool × State :=
  if s.pypy_ignoring_nested_prints ≠ 0 then (false, s)
  else (true, pypy_debug_ensure_opened env s)

/-- Source line 29, the macro `OP_HAVE_DEBUG_PRINTS(r)`: the value stored in `r`. -/
def OP_HAVE_DEBUG_PRINTS (s : State) : Bool :=
  decide (s.pypy_ignoring_nested_prints = 0)

/-! ## Call sequences -/

/-- A use of the header by the generated code. -/
inductive Call where
  /-- The call `PYPY_DEBUG_START(category)`. -/
  | start (category : CStr)
  /-- The call `PYPY_DEBUG_STOP(category)`. -/
  | stop (category : CStr)
  /-- An evaluation of `PYPY_HAVE_DEBUG_PRINTS`. -/
  | have_debug_prints
  /-- An evaluation of `OP_HAVE_DEBUG_PRINTS(r)`. -/
  | op_have_debug_prints
  deriving DecidableEq, Repr

/-- The state after one call. -/
def step (env : Env) (s : State) : Call → State
  | Call.start category => pypy_debug_start env category s
  | Call.stop category => pypy_debug_stop env category s
  | Call.have_debug_prints => (PYPY_HAVE_DEBUG_PRINTS env s).2
  | Call.op_have_debug_prints => s

/-- The state after a sequence of calls. -/
def run (env : Env) (cs : List Call) (s : State) : State :=
  cs.foldl (step env) s

/-- The boundary records written so far, oldest first: the `start` and
`category` arguments of each `fprintf` call. -/
def records (s : State) : List (CStr × CStr) :=
  s.effects.filterMap fun e =>
    match e with
    | Effect.fprintf _ _ start category => some (start, category)
    | _ => none

/-- A well-nested sequence of sections: either nothing, or a section of some
category with a well-nested body, followed by a well-nested sequence. -/
inductive Sections where
  | done : Sections
  | sect (category : CStr) (body rest : Sections) : Sections
  deriving DecidableEq, Repr

/-- The start/stop calls of a well-nested sequence of sections, in order. -/
def Sections.calls : Sections → List Call
  | Sections.done => []
  | Sections.sect c body rest =>
    Call.start c :: (body.calls ++ Call.stop c :: rest.calls)

/-- The categories of the sections open after a sequence of calls, innermost
first: a start opens a section, a stop closes the innermost open one. -/
def openSections : List Call → List CStr → List CStr
  | [], open_ => open_
  | Call.start c :: cs, open_ => openSections cs (c :: open_)
  | Call.stop _ :: cs, open_ => openSections cs open_.tail
  | _ :: cs, open_ => openSections cs open_

/-! ## The behaviour the specification describes -/

/-- The boundary records of conditional logging with prefix `p`, in the
specification's words: the start and stop records of the sections whose own
category and the category of every enclosing section begin with `p`. -/
def conditionalRecords (p : CStr) : Sections → List (CStr × CStr)
  | Sections.done => []
  | Sections.sect c body rest =>
    (if p <+: c then (str_start, c) :: (conditionalRecords p body ++ [(str_stop, c)]) else [])
      ++ conditionalRecords p rest

/-- Every boundary record of a well-nested sequence of sections: a start and
a stop record for each section, in call order. -/
def allRecords : Sections → List (CStr × CStr)
  | Sections.done => []
  | Sections.sect c body rest =>
    (str_start, c) :: (allRecords body ++ (str_stop, c) :: allRecords rest)

/-- Whether every stop of a call sequence closes a section that is open, when
`k` sections are open before the first call. -/
def stopsMatched : List Call → Nat → Bool
  | [], _ => true
  | Call.start _ :: cs, k => stopsMatched cs (k + 1)
  | Call.stop _ :: _, 0 => false
  | Call.stop _ :: cs, k + 1 => stopsMatched cs k
  | _ :: cs, k => stopsMatched cs k

/-- The number of open sections from the outermost one whose category does
not begin with `p` up to the innermost one (0 when every category begins with
`p`); `open_` lists the open categories innermost first. -/
def ignoredDepth (p : CStr) : List CStr → Nat
  | [] => 0
  | c :: below =>
    if 0 < ignoredDepth p below then ignoredDepth p below + 1
    else if p <+: c then 0 else 1

/-! ## The text of a boundary record -/

/-- The lowercase hexadecimal digit of value `d mod 16`: `'0'`..`'9'`,
`'a'`..`'f'`. -/
def hexDigit (d : Nat) : CChar :=
  if h : d % 16 < 10 then ⟨48 + d % 16, ⟨by omega, by omega⟩⟩
  else ⟨87 + d % 16, ⟨by omega, by omega⟩⟩

/-- C library conversion of an unsigned value by `%llx`: the digits come from
repeated division by 16, the least significant first, each put in front of
those already produced, until the quotient is 0; `fuel` bounds the number of
digits (16 for a 64-bit value). -/
def llx_digits : Nat → Nat → CStr → CStr
  | 0, _, acc => acc
  | fuel + 1, v, acc =>
    if v / 16 = 0 then hexDigit v :: acc
    else llx_digits fuel (v / 16) (hexDigit v :: acc)

/-- C library conversion `%llx` of a `long long` argument: the argument taken
as an unsigned 64-bit value, in lowercase hexadecimal. -/
def llx (t : Int) : CStr :=
  llx_digits 16 (t % 2 ^ 64).toNat []

/-- An argument of a formatted-output call. -/
inductive PrintfArg where
  /-- An argument of type `long long`. -/
  | long_long (v : Int)
  /-- An argument of type `char *`. -/
  | string (s : CStr)

/-- C library formatted output, for the conversions the header uses: `%llx`
takes a `long long` argument, `%s` a string argument, every other byte of the
format is copied. -/
def printf_text : CStr → List PrintfArg → CStr
  | ⟨37, _⟩ :: ⟨108, _⟩ :: ⟨108, _⟩ :: ⟨120, _⟩ :: fmt, PrintfArg.long_long v :: args =>
    llx v ++ printf_text fmt args
  | ⟨37, _⟩ :: ⟨115, _⟩ :: fmt, PrintfArg.string str :: args =>
    str ++ printf_text fmt args
  | ch :: fmt, args => ch :: printf_text fmt args
  | [], _ => []

/-- The format string of source line 107. -/
def fmt_startstop : CStr := cstr "\x7b%llx\x7d -%s- %s\n"

/-- The text a library call writes to its stream. -/
def Effect.written : Effect → CStr
  | Effect.fprintf _ timestamp start category =>
    printf_text fmt_startstop
      [PrintfArg.long_long timestamp, PrintfArg.string start, PrintfArg.string category]
  | _ => []

/-- The value of a lowercase hexadecimal digit, `none` for any other byte. -/
def hexValue (ch : CChar) : Option Nat :=
  if 48 ≤ ch.val ∧ ch.val ≤ 57 then some (ch.val - 48)
  else if 97 ≤ ch.val ∧ ch.val ≤ 102 then some (ch.val - 87)
  else none

/-- The number that the lowercase hexadecimal numeral `h` denotes after the
digits of `acc`, most significant digit first; `none` when some byte of `h` is
not a lowercase hexadecimal digit. -/
def hexNumber (acc : Nat) : CStr → Option Nat
  | [] => some acc
  | ch :: h =>
    match hexValue ch with
    | none => none
    | some d => hexNumber (16 * acc + d) h

/-! ## Forgetting the sink -/

/-- A library call with the stream of an `fprintf` forgotten. -/
def Effect.forgetSink : Effect → Effect
  | Effect.fprintf _ timestamp start category => Effect.fprintf none timestamp start category
  | e => e

/-- A state with the identity of the sink forgotten: `pypy_debug_file` and the
stream of every `fprintf` so far. -/
def State.forgetSink (s : State) : State :=
  { s with pypy_debug_file := none, effects := s.effects.map Effect.forgetSink }

/-! ## The prefix matcher over memory -/

/-- The byte at offset `i` from a pointer to the C string `s`: the bytes of
`s`, then the terminating NUL, then the memory after the NUL, of which
`beyond` gives the bytes. -/
def byteAt : CStr → (Nat → Nat) → Nat → Nat
  | [], _, 0 => 0
  | [], beyond, i + 1 => beyond i
  | b :: _, _, 0 => b.val
  | _ :: s, beyond, i + 1 => byteAt s beyond i

/-- Source lines 95-101 as the loop over memory it is: `str` and `substr` give
the byte at each offset from the two pointers, which advance together, and `i`
counts the increments made.  The result is the value returned together with
the offsets from `str` that were read, in order; it is `none` when `fuel`
iterations reach no `return`. -/
def startswith_loop (str substr : Nat → Nat) : Nat → Nat → Option (Bool × List Nat)
  | 0, _ => none
  | fuel + 1, i =>
    if substr i ≠ 0 then
      if str i ≠ substr i then some (false, [i])
      else (startswith_loop str substr fuel (i + 1)).map fun r => (r.1, i :: r.2)
    else some (true, [])

/-! ## Scenarios -/

/-- The environment with `PYPYLOG` set to `value`, in which every `fopen`
succeeds and the timestamp counter reads 0. -/
def envWith (value : String) : Env where
  PYPYLOG := some (cstr value)
  fopen_ok := fun _ => true
  rdtsc := fun _ => 0

/-- One section of the given category enclosing `body`. -/
def section1 (category : String) (body : Sections) : Sections :=
  Sections.sect (cstr category) body Sections.done


/-! ## Facts about the configuration resolver -/

theorem strchr_none {v : CStr} {c : CChar} (h : c ∉ v) : strchr v c = none := by
  induction v with
  | nil => rfl
  | cons b bs ih =>
    simp only [List.mem_cons, not_or] at h
    have hb : b ≠ c := fun e => h.1 e.symm
    simp [strchr, hb, ih h.2]

theorem strchr_append {p : CStr} {c : CChar} (d : CStr) (h : c ∉ p) :
    strchr (p ++ c :: d) c = some p.length := by
  induction p with
  | nil => simp [strchr]
  | cons b bs ih =>
    simp only [List.mem_cons, not_or] at h
    have hb : b ≠ c := fun e => h.1 e.symm
    simp [strchr, hb, ih h.2]

/-- Every value that contains a `':'` has the shape `p:d` with no `':'` in `p`. -/
theorem exists_first_colon (v : CStr) (h : colon ∈ v) :
    ∃ p d : CStr, v = p ++ colon :: d ∧ colon ∉ p := by
  induction v with
  | nil => cases h
  | cons b bs ih =>
    by_cases hb : b = colon
    · exact ⟨[], bs, by simp [hb], List.not_mem_nil _⟩
    · have hmem : colon ∈ bs := by
        rcases List.mem_cons.1 h with e | e
        · exact absurd e.symm hb
        · exact e
      obtain ⟨p, d, hv, hp⟩ := ih hmem
      refine ⟨b :: p, d, by simp [hv], ?_⟩
      intro hc
      rcases List.mem_cons.1 hc with e | e
      · exact hb e.symm
      · exact hp e

@[simp] theorem records_emit_getenv (s : State) : records (s.emit Effect.getenv) = records s := by
  simp [records, State.emit, List.filterMap_append]

@[simp] theorem records_emit_fopen (s : State) (f m : CStr) :
    records (s.emit (Effect.fopen f m)) = records s := by
  simp [records, State.emit, List.filterMap_append]

@[simp] theorem records_emit_fprintf (s : State) (file : Option FILE) (t : Int) (k c : CStr) :
    records (s.emit (Effect.fprintf file t k c)) = records s ++ [(k, c)] := by
  simp [records, State.emit, List.filterMap_append]

theorem open_depth (env : Env) (s : State) :
    (pypy_debug_open env s).pypy_ignoring_nested_prints = s.pypy_ignoring_nested_prints := by
  simp only [pypy_debug_open, pypy_debug_open_file, pypy_debug_open_mode, State.emit]
  repeat' split
  all_goals rfl

theorem open_ready (env : Env) (s : State) : (pypy_debug_open env s).debug_ready = true := rfl

theorem open_records (env : Env) (s : State) : records (pypy_debug_open env s) = records s := by
  simp only [pypy_debug_open, pypy_debug_open_file, pypy_debug_open_mode, State.emit]
  repeat' split
  all_goals simp [records, List.filterMap_append]

theorem open_file_isSome (env : Env) (s : State) :
    (pypy_debug_open env s).pypy_debug_file.isSome = true := by
  simp only [pypy_debug_open]
  split
  · rfl
  · rename_i hn
    simpa [Option.isSome_iff_ne_none] using hn

theorem open_profile_of_profile (env : Env) (s : State) (h : s.debug_profile = true) :
    (pypy_debug_open env s).debug_profile = true := by
  simp only [pypy_debug_open, pypy_debug_open_file, pypy_debug_open_mode, State.emit]
  repeat' split
  all_goals simp [h]

/-- Unfolding of `pypy_debug_open` when `PYPYLOG` is set and not empty. -/
theorem open_of_nonempty {env : Env} {v : CStr} (h : env.PYPYLOG = some v) (hv : v ≠ [])
    (s : State) :
    pypy_debug_open env s =
      { (if (pypy_debug_open_file env (pypy_debug_open_mode v (s.emit Effect.getenv)).2
              (pypy_debug_open_mode v (s.emit Effect.getenv)).1).pypy_debug_file.isNone
          then { pypy_debug_open_file env (pypy_debug_open_mode v (s.emit Effect.getenv)).2
                  (pypy_debug_open_mode v (s.emit Effect.getenv)).1 with
                  pypy_debug_file := some FILE.stderr }
          else pypy_debug_open_file env (pypy_debug_open_mode v (s.emit Effect.getenv)).2
                  (pypy_debug_open_mode v (s.emit Effect.getenv)).1) with debug_ready := true } := by
  cases v with
  | nil => exact absurd rfl hv
  | cons b bs => simp only [pypy_debug_open, h]

/-- Unfolding of `pypy_debug_open` when `PYPYLOG` is unset or empty. -/
theorem open_of_empty {env : Env} (h : env.PYPYLOG = none ∨ env.PYPYLOG = some []) (s : State) :
    pypy_debug_open env s =
      { (if (s.emit Effect.getenv).pypy_debug_file.isNone
          then { s.emit Effect.getenv with pypy_debug_file := some FILE.stderr }
          else s.emit Effect.getenv) with debug_ready := true } := by
  rcases h with h | h <;> simp only [pypy_debug_open, h]

theorem open_mode_conditional {p : CStr} (d : CStr) (hp : colon ∉ p) (s : State) :
    pypy_debug_open_mode (p ++ colon :: d) s = ({ s with debug_prefix := some p }, d) := by
  simp [pypy_debug_open_mode, strchr_append d hp]

theorem open_mode_profiling {v : CStr} (hc : colon ∉ v) (s : State) :
    pypy_debug_open_mode v s = ({ s with debug_profile := true }, v) := by
  simp [pypy_debug_open_mode, strchr_none hc]

theorem open_conditional {env : Env} {p d : CStr} (h : env.PYPYLOG = some (p ++ colon :: d))
    (hp : colon ∉ p) (s : State) :
    State.debug_prefix (pypy_debug_open env s) = some p ∧
      (pypy_debug_open env s).debug_profile = s.debug_profile := by
  rw [open_of_nonempty h (by simp), open_mode_conditional d hp]
  simp only [pypy_debug_open_file, State.emit]
  constructor <;> (repeat' split) <;> rfl

theorem open_profiling {env : Env} {v : CStr} (h : env.PYPYLOG = some v) (hv : v ≠ [])
    (hc : colon ∉ v) (s : State) :
    (pypy_debug_open env s).debug_profile = true ∧
      State.debug_prefix (pypy_debug_open env s) = s.debug_prefix := by
  rw [open_of_nonempty h hv, open_mode_profiling hc]
  simp only [pypy_debug_open_file, State.emit]
  constructor <;> (repeat' split) <;> rfl

theorem open_off {env : Env} (h : env.PYPYLOG = none ∨ env.PYPYLOG = some []) (s : State) :
    (pypy_debug_open env s).debug_profile = s.debug_profile ∧
      State.debug_prefix (pypy_debug_open env s) = s.debug_prefix := by
  rw [open_of_empty h]
  simp only [State.emit]
  constructor <;> (repeat' split) <;> rfl

theorem ensure_depth (env : Env) (s : State) :
    (pypy_debug_ensure_opened env s).pypy_ignoring_nested_prints
      = s.pypy_ignoring_nested_prints := by
  unfold pypy_debug_ensure_opened
  split
  · exact open_depth env s
  · rfl

theorem ensure_records (env : Env) (s : State) :
    records (pypy_debug_ensure_opened env s) = records s := by
  unfold pypy_debug_ensure_opened
  split
  · exact open_records env s
  · rfl

theorem ensure_ready (env : Env) (s : State) :
    (pypy_debug_ensure_opened env s).debug_ready = true := by
  unfold pypy_debug_ensure_opened
  split
  · rfl
  · simp_all

theorem ensure_of_ready (env : Env) (s : State) (h : s.debug_ready = true) :
    pypy_debug_ensure_opened env s = s := by
  simp [pypy_debug_ensure_opened, h]

theorem ensure_of_not_ready (env : Env) (s : State) (h : s.debug_ready = false) :
    pypy_debug_ensure_opened env s = pypy_debug_open env s := by
  simp [pypy_debug_ensure_opened, h]

theorem ensure_profile_of_profile (env : Env) (s : State) (h : s.debug_profile = true) :
    (pypy_debug_ensure_opened env s).debug_profile = true := by
  unfold pypy_debug_ensure_opened
  split
  · exact open_profile_of_profile env s h
  · exact h

/-! ## Facts about single calls -/

theorem startswith_iff (c p : CStr) : startswith c p = true ↔ p <+: c := by
  induction p generalizing c with
  | nil => simp [startswith]
  | cons b p ih =>
    cases c with
    | nil => simp [startswith]
    | cons a c =>
      by_cases hab : a = b
      · subst hab
        simp [startswith, ih, List.cons_prefix_cons]
      · have hba : ¬ b = a := fun e => hab e.symm
        simp [startswith, hab, hba, List.cons_prefix_cons]

@[simp] theorem run_nil (env : Env) (s : State) : run env [] s = s := rfl

@[simp] theorem run_cons (env : Env) (c : Call) (cs : List Call) (s : State) :
    run env (c :: cs) s = run env cs (step env s c) := rfl

@[simp] theorem run_append (env : Env) (as bs : List Call) (s : State) :
    run env (as ++ bs) s = run env bs (run env as s) := by
  simp [run, List.foldl_append]

@[simp] theorem records_display (env : Env) (k c : CStr) (s : State) :
    records (display_startstop env k c s) = records s ++ [(k, c)] := by
  simp [display_startstop]

@[simp] theorem display_depth (env : Env) (k c : CStr) (s : State) :
    (display_startstop env k c s).pypy_ignoring_nested_prints
      = s.pypy_ignoring_nested_prints := rfl

@[simp] theorem display_profile (env : Env) (k c : CStr) (s : State) :
    (display_startstop env k c s).debug_profile = s.debug_profile := rfl

@[simp] theorem display_ready (env : Env) (k c : CStr) (s : State) :
    (display_startstop env k c s).debug_ready = s.debug_ready := rfl

@[simp] theorem display_debug_prefix (env : Env) (k c : CStr) (s : State) :
    State.debug_prefix (display_startstop env k c s) = s.debug_prefix := rfl

@[simp] theorem display_file (env : Env) (k c : CStr) (s : State) :
    (display_startstop env k c s).pypy_debug_file = s.pypy_debug_file := rfl

/-- A start call below an ignored section, outside profiling. -/
theorem start_of_ignoring (env : Env) (c : CStr) (s : State) (hp : s.debug_profile = false)
    (hd : 0 < s.pypy_ignoring_nested_prints) :
    pypy_debug_start env c s
      = { s with pypy_ignoring_nested_prints := s.pypy_ignoring_nested_prints + 1 } := by
  simp [pypy_debug_start, hp, hd]

/-- A stop call below an ignored section, outside profiling. -/
theorem stop_of_ignoring (env : Env) (c : CStr) (s : State) (hp : s.debug_profile = false)
    (hd : 0 < s.pypy_ignoring_nested_prints) :
    pypy_debug_stop env c s
      = { s with pypy_ignoring_nested_prints := s.pypy_ignoring_nested_prints - 1 } := by
  simp [pypy_debug_stop, hp, hd]

/-- A stop call at depth 0 writes its record. -/
theorem stop_of_zero (env : Env) (c : CStr) (s : State)
    (hd : s.pypy_ignoring_nested_prints = 0) :
    pypy_debug_stop env c s = display_startstop env str_stop c s := by
  simp [pypy_debug_stop, hd]

/-- Outside profiling, a well-nested sequence run below an ignored section
leaves the whole state as it was. -/
theorem run_ignoring (env : Env) (f : Sections) :
    ∀ s : State, s.debug_profile = false → 0 < s.pypy_ignoring_nested_prints →
      run env f.calls s = s := by
  induction f with
  | done => intro s _ _; rfl
  | sect c body rest ihb ihr =>
    intro s hp hd
    simp only [Sections.calls, run_cons, run_append, step]
    have hd1 : 0 < s.pypy_ignoring_nested_prints + 1 := by omega
    rw [start_of_ignoring env c s hp hd,
      ihb { s with pypy_ignoring_nested_prints := s.pypy_ignoring_nested_prints + 1 } hp hd1,
      stop_of_ignoring env c
        { s with pypy_ignoring_nested_prints := s.pypy_ignoring_nested_prints + 1 } hp hd1]
    have : ({ pypy_ignoring_nested_prints := s.pypy_ignoring_nested_prints + 1 - 1,
              pypy_debug_file := s.pypy_debug_file, debug_ready := s.debug_ready,
              debug_profile := s.debug_profile, debug_prefix := s.debug_prefix,
              effects := s.effects } : State) = s := by
      cases s; simp
    simp only [this]
    exact ihr s hp hd

/-! ## Conditional logging -/

theorem ensure_conditional {env : Env} {p d : CStr} (h : env.PYPYLOG = some (p ++ colon :: d))
    (hp : colon ∉ p) (s : State) (hprof : s.debug_profile = false)
    (hpre : s.debug_ready = true → s.debug_prefix = some p) :
    State.debug_prefix (pypy_debug_ensure_opened env s) = some p ∧
      (pypy_debug_ensure_opened env s).debug_profile = false := by
  cases hr : s.debug_ready with
  | false =>
    rw [ensure_of_not_ready env s hr]
    have := open_conditional h hp s
    exact ⟨this.1, this.2.trans hprof⟩
  | true =>
    rw [ensure_of_ready env s hr]
    exact ⟨hpre hr, hprof⟩

/-- A start call at depth 0 under conditional logging. -/
theorem start_conditional {env : Env} {p d : CStr} (h : env.PYPYLOG = some (p ++ colon :: d))
    (hp : colon ∉ p) (c : CStr) (s : State) (hprof : s.debug_profile = false)
    (hpre : s.debug_ready = true → s.debug_prefix = some p)
    (hd : s.pypy_ignoring_nested_prints = 0) :
    pypy_debug_start env c s =
      if startswith c p then display_startstop env str_start c (pypy_debug_ensure_opened env s)
      else { pypy_debug_ensure_opened env s with pypy_ignoring_nested_prints := 1 } := by
  have he := (ensure_conditional h hp s hprof hpre).1
  simp only [pypy_debug_start, hprof, hd, he]
  by_cases hm : startswith c p = true <;> simp [hm]

/-- The state and the records after a well-nested sequence run at depth 0
under conditional logging. -/
theorem run_conditional {env : Env} {p d : CStr} (h : env.PYPYLOG = some (p ++ colon :: d))
    (hp : colon ∉ p) (f : Sections) :
    ∀ s : State, s.debug_profile = false → s.pypy_ignoring_nested_prints = 0 →
      (s.debug_ready = true → s.debug_prefix = some p) →
      (run env f.calls s).debug_profile = false ∧
      (run env f.calls s).pypy_ignoring_nested_prints = 0 ∧
      ((run env f.calls s).debug_ready = true → State.debug_prefix (run env f.calls s) = some p) ∧
      records (run env f.calls s) = records s ++ conditionalRecords p f := by
  induction f with
  | done => intro s h1 h2 h3; exact ⟨h1, h2, h3, by simp [Sections.calls, conditionalRecords]⟩
  | sect c body rest ihb ihr =>
    intro s hprof hd hpre
    obtain ⟨e1, e2⟩ := ensure_conditional h hp s hprof hpre
    have e3 := ensure_depth env s
    have e4 := ensure_records env s
    simp only [Sections.calls, run_cons, run_append, step]
    rw [start_conditional h hp c s hprof hpre hd]
    by_cases hm : startswith c p = true
    · have hpc : p <+: c := (startswith_iff c p).1 hm
      simp only [hm, if_true]
      obtain ⟨b1, b2, b3, b4⟩ :=
        ihb (display_startstop env str_start c (pypy_debug_ensure_opened env s))
          (by simpa using e2) (by simpa [hd] using e3) (by intro _; simpa using e1)
      rw [stop_of_zero env c _ b2]
      obtain ⟨r1, r2, r3, r4⟩ :=
        ihr (display_startstop env str_stop c
              (run env body.calls
                (display_startstop env str_start c (pypy_debug_ensure_opened env s))))
          (by simpa using b1) (by simpa using b2) (by simpa using b3)
      refine ⟨r1, r2, r3, ?_⟩
      rw [r4, records_display, b4, records_display, e4]
      simp [conditionalRecords, hpc]
    · have hpc : ¬ p <+: c := fun hh => hm ((startswith_iff c p).2 hh)
      simp only [hm, if_false, Bool.false_eq_true]
      generalize pypy_debug_ensure_opened env s = s1 at e1 e2 e3 e4 ⊢
      have h1 : (0 : Int) < 1 := by decide
      rw [run_ignoring env body { s1 with pypy_ignoring_nested_prints := 1 } e2 h1,
        stop_of_ignoring env c { s1 with pypy_ignoring_nested_prints := 1 } e2 h1]
      obtain ⟨r1, r2, r3, r4⟩ :=
        ihr { s1 with pypy_ignoring_nested_prints := 1 - 1 }
          e2 (by simp) (by intro _; exact e1)
      refine ⟨r1, r2, r3, ?_⟩
      rw [r4]
      have : records ({ s1 with pypy_ignoring_nested_prints := 1 - 1 } : State) = records s := e4
      rw [this]
      simp [conditionalRecords, hpc]

/-! ## Call sequences and open sections -/

theorem openSections_cons (c : Call) (cs : List Call) (st : List CStr) :
    openSections (c :: cs) st = openSections cs (openSections [c] st) := by
  cases c <;> rfl

theorem openSections_append (as bs : List Call) (st : List CStr) :
    openSections (as ++ bs) st = openSections bs (openSections as st) := by
  induction as generalizing st with
  | nil => rfl
  | cons c cs ih =>
    rw [List.cons_append, openSections_cons, ih, openSections_cons c cs]

theorem stopsMatched_calls_append (f : Sections) :
    ∀ (k : Nat) (cs : List Call), stopsMatched cs k = true →
      stopsMatched (f.calls ++ cs) k = true := by
  induction f with
  | done => intro k cs h; exact h
  | sect c body rest ihb ihr =>
    intro k cs h
    have e : (Sections.sect c body rest).calls ++ cs
        = Call.start c :: (body.calls ++ Call.stop c :: (rest.calls ++ cs)) := by
      simp [Sections.calls]
    rw [e]
    exact ihb (k + 1) (Call.stop c :: (rest.calls ++ cs)) (ihr k cs h)

theorem stopsMatched_take (cs : List Call) :
    ∀ (k n : Nat), stopsMatched cs k = true → stopsMatched (cs.take n) k = true := by
  induction cs with
  | nil => intro k n h; simpa using h
  | cons c cs ih =>
    intro k n h
    cases n with
    | zero => rfl
    | succ n =>
      cases c with
      | start c => exact ih (k + 1) n h
      | stop c =>
        cases k with
        | zero => simp [stopsMatched] at h
        | succ k => exact ih k n h
      | have_debug_prints => exact ih k n h
      | op_have_debug_prints => exact ih k n h

/-- At every point of a well-nested sequence, each stop so far closed an
open section. -/
theorem stopsMatched_take_calls (f : Sections) (n k : Nat) :
    stopsMatched (f.calls.take n) k = true := by
  apply stopsMatched_take
  have := stopsMatched_calls_append f k [] rfl
  simpa using this

theorem ignoredDepth_eq_zero (p : CStr) (st : List CStr) :
    ignoredDepth p st = 0 ↔ ∀ c ∈ st, p <+: c := by
  induction st with
  | nil => simp [ignoredDepth]
  | cons c below ih =>
    simp only [ignoredDepth, List.mem_cons, forall_eq_or_imp]
    by_cases hb : 0 < ignoredDepth p below
    · have : ¬ ignoredDepth p below = 0 := by omega
      simp [hb, ← ih, this]
    · have hz : ignoredDepth p below = 0 := by omega
      by_cases hc : p <+: c <;> simp [hb, hc, ← ih, hz]

theorem ignoredDepth_cons_of_pos (p c : CStr) (below : List CStr)
    (h : 0 < ignoredDepth p (c :: below)) :
    ignoredDepth p (c :: below) = ignoredDepth p below + 1 := by
  simp only [ignoredDepth] at h ⊢
  by_cases hb : 0 < ignoredDepth p below
  · simp [hb]
  · have hz : ignoredDepth p below = 0 := by omega
    by_cases hc : p <+: c
    · simp [hb, hc] at h
    · simp [hc, hz]

theorem ignoredDepth_tail_of_zero (p : CStr) (st : List CStr) (h : ignoredDepth p st = 0) :
    ignoredDepth p st.tail = 0 := by
  rw [ignoredDepth_eq_zero] at h ⊢
  intro c hc
  exact h c (List.mem_of_mem_tail hc)

/-- One call under conditional logging: the mode fields stay as resolved and
the counter follows `ignoredDepth`. -/
theorem step_conditional {env : Env} {p d : CStr} (h : env.PYPYLOG = some (p ++ colon :: d))
    (hp : colon ∉ p) (call : Call) (st : List CStr) (s : State)
    (hprof : s.debug_profile = false)
    (hpre : s.debug_ready = true → s.debug_prefix = some p)
    (hd : s.pypy_ignoring_nested_prints = (ignoredDepth p st : Nat)) :
    (step env s call).debug_profile = false ∧
      ((step env s call).debug_ready = true → State.debug_prefix (step env s call) = some p) ∧
      (step env s call).pypy_ignoring_nested_prints
        = (ignoredDepth p (openSections [call] st) : Nat) := by
  obtain ⟨e1, e2⟩ := ensure_conditional h hp s hprof hpre
  have e3 := ensure_depth env s
  cases call with
  | start c =>
    simp only [step, openSections]
    by_cases hz : 0 < ignoredDepth p st
    · rw [start_of_ignoring env c s hprof (by omega)]
      refine ⟨hprof, hpre, ?_⟩
      simp [ignoredDepth, hz, hd]
    · have hd0 : s.pypy_ignoring_nested_prints = 0 := by omega
      rw [start_conditional h hp c s hprof hpre hd0]
      by_cases hm : startswith c p = true
      · have hpc : p <+: c := (startswith_iff c p).1 hm
        simp only [hm, if_true]
        refine ⟨e2, fun _ => e1, ?_⟩
        simp [ignoredDepth, hz, hpc, e3, hd0]
      · have hpc : ¬ p <+: c := fun hh => hm ((startswith_iff c p).2 hh)
        simp only [hm, if_false, Bool.false_eq_true]
        refine ⟨e2, fun _ => e1, ?_⟩
        simp [ignoredDepth, hz, hpc]
  | stop c =>
    simp only [step, openSections]
    by_cases hz : 0 < ignoredDepth p st
    · rw [stop_of_ignoring env c s hprof (by omega)]
      refine ⟨hprof, hpre, ?_⟩
      cases st with
      | nil => simp [ignoredDepth] at hz
      | cons c1 below =>
        have := ignoredDepth_cons_of_pos p c1 below hz
        simp only [List.tail_cons, hd, this]
        omega
    · have hz0 : ignoredDepth p st = 0 := by omega
      have hd0 : s.pypy_ignoring_nested_prints = 0 := by omega
      rw [stop_of_zero env c s hd0]
      refine ⟨hprof, hpre, ?_⟩
      simp [ignoredDepth_tail_of_zero p st hz0, hd0]
  | have_debug_prints =>
    simp only [step, openSections, PYPY_HAVE_DEBUG_PRINTS]
    split
    · exact ⟨hprof, hpre, hd⟩
    · exact ⟨e2, fun _ => e1, e3.trans hd⟩
  | op_have_debug_prints => exact ⟨hprof, hpre, hd⟩

/-- After any sequence of calls under conditional logging, the counter is
`ignoredDepth` of the open sections. -/
theorem run_conditional_depth {env : Env} {p d : CStr}
    (h : env.PYPYLOG = some (p ++ colon :: d)) (hp : colon ∉ p) (cs : List Call) :
    ∀ (st : List CStr) (s : State), s.debug_profile = false →
      (s.debug_ready = true → s.debug_prefix = some p) →
      s.pypy_ignoring_nested_prints = (ignoredDepth p st : Nat) →
      (run env cs s).pypy_ignoring_nested_prints = (ignoredDepth p (openSections cs st) : Nat) := by
  induction cs with
  | nil => intro st s _ _ hd; exact hd
  | cons c cs ih =>
    intro st s h1 h2 h3
    obtain ⟨k1, k2, k3⟩ := step_conditional h hp c st s h1 h2 h3
    rw [run_cons, openSections_cons]
    exact ih _ _ k1 k2 k3

/-! ## The counter in every mode -/

theorem stop_depth (env : Env) (c : CStr) (s : State) :
    (pypy_debug_stop env c s).pypy_ignoring_nested_prints
      = if 0 < s.pypy_ignoring_nested_prints then s.pypy_ignoring_nested_prints - 1
        else s.pypy_ignoring_nested_prints := by
  unfold pypy_debug_stop
  by_cases hz : 0 < s.pypy_ignoring_nested_prints
  · simp only [gt_iff_lt, hz, if_true]
    split <;> rfl
  · simp only [gt_iff_lt, hz, if_false]
    rfl

theorem start_depth (env : Env) (c : CStr) (s : State) (h : 0 ≤ s.pypy_ignoring_nested_prints) :
    (pypy_debug_start env c s).pypy_ignoring_nested_prints = s.pypy_ignoring_nested_prints + 1 ∨
      (s.pypy_ignoring_nested_prints = 0 ∧
        (pypy_debug_start env c s).pypy_ignoring_nested_prints = 0) := by
  have e := ensure_depth env s
  simp only [pypy_debug_start]
  split
  · left
    simp only [display_depth, e]
  · split
    · left; rfl
    · have hz : s.pypy_ignoring_nested_prints = 0 := by omega
      split
      · left; simp [hz]
      · split
        · left; simp [hz]
        · right
          exact ⟨hz, by simp only [display_depth, e, hz]⟩

theorem step_depth_nonneg (env : Env) (call : Call) (s : State)
    (h : 0 ≤ s.pypy_ignoring_nested_prints) :
    0 ≤ (step env s call).pypy_ignoring_nested_prints := by
  cases call with
  | start c =>
    rcases start_depth env c s h with e | ⟨_, e⟩ <;> simp only [step, e] <;> omega
  | stop c =>
    simp only [step, stop_depth]
    split <;> omega
  | have_debug_prints =>
    simp only [step, PYPY_HAVE_DEBUG_PRINTS]
    split
    · exact h
    · simpa only [ensure_depth] using h
  | op_have_debug_prints => exact h

/-- The counter never goes below 0, whatever the calls. -/
theorem run_depth_nonneg (env : Env) (cs : List Call) :
    ∀ s : State, 0 ≤ s.pypy_ignoring_nested_prints →
      0 ≤ (run env cs s).pypy_ignoring_nested_prints := by
  induction cs with
  | nil => intro s h; exact h
  | cons c cs ih => intro s h; exact ih _ (step_depth_nonneg env c s h)

/-- A well-nested sequence leaves the counter where it was. -/
theorem run_depth_roundtrip (env : Env) (f : Sections) :
    ∀ s : State, 0 ≤ s.pypy_ignoring_nested_prints →
      (run env f.calls s).pypy_ignoring_nested_prints = s.pypy_ignoring_nested_prints := by
  induction f with
  | done => intro s _; rfl
  | sect c body rest ihb ihr =>
    intro s h
    simp only [Sections.calls, run_cons, run_append, step]
    have h1 : 0 ≤ (pypy_debug_start env c s).pypy_ignoring_nested_prints :=
      step_depth_nonneg env (Call.start c) s h
    have hb := ihb (pypy_debug_start env c s) h1
    have hs := stop_depth env c (run env body.calls (pypy_debug_start env c s))
    have h2 : 0 ≤ (pypy_debug_stop env c
        (run env body.calls (pypy_debug_start env c s))).pypy_ignoring_nested_prints :=
      step_depth_nonneg env (Call.stop c) _ (by rw [hb]; exact h1)
    rw [ihr _ h2, hs, hb]
    rcases start_depth env c s h with e | ⟨e0, e⟩
    · rw [e]; split <;> omega
    · rw [e, e0]; rfl

/-! ## Profiling -/

theorem ensure_profiling {env : Env} {v : CStr} (h : env.PYPYLOG = some v) (hv : v ≠ [])
    (hc : colon ∉ v) (s : State) (hr : s.debug_ready = true → s.debug_profile = true) :
    (pypy_debug_ensure_opened env s).debug_profile = true ∧
      State.debug_prefix (pypy_debug_ensure_opened env s) = s.debug_prefix := by
  cases hready : s.debug_ready with
  | false =>
    rw [ensure_of_not_ready env s hready]
    exact open_profiling h hv hc s
  | true =>
    rw [ensure_of_ready env s hready]
    exact ⟨hr hready, rfl⟩

/-- One call under profiling: the counter is the number of open sections. -/
theorem step_profiling {env : Env} {v : CStr} (h : env.PYPYLOG = some v) (hv : v ≠ [])
    (hc : colon ∉ v) (call : Call) (st : List CStr) (s : State)
    (hd : s.pypy_ignoring_nested_prints = (st.length : Nat))
    (hu : s.debug_ready = false → s.debug_profile = false ∧ s.debug_prefix = none)
    (hr : s.debug_ready = true → s.debug_profile = true) :
    (step env s call).pypy_ignoring_nested_prints = ((openSections [call] st).length : Nat) ∧
      ((step env s call).debug_ready = false →
        (step env s call).debug_profile = false ∧ State.debug_prefix (step env s call) = none) ∧
      ((step env s call).debug_ready = true → (step env s call).debug_profile = true) := by
  obtain ⟨e1, e2⟩ := ensure_profiling h hv hc s hr
  have e3 := ensure_depth env s
  have e4 := ensure_ready env s
  cases call with
  | start c =>
    simp only [step, openSections, List.length_cons]
    cases hprof : s.debug_profile with
    | true =>
      simp only [pypy_debug_start, hprof, if_true, display_depth, display_ready,
        display_profile, display_debug_prefix, e3, e4, e1]
      refine ⟨by rw [hd]; simp, by simp, by simp⟩
    | false =>
      have hready : s.debug_ready = false := by
        cases hq : s.debug_ready with
        | false => rfl
        | true => rw [hr hq] at hprof; cases hprof
      by_cases hz : 0 < s.pypy_ignoring_nested_prints
      · rw [start_of_ignoring env c s hprof hz]
        exact ⟨by simp only [hd]; simp, hu, hr⟩
      · have hz0 : s.pypy_ignoring_nested_prints = 0 := by omega
        have hl : st.length = 0 := by omega
        have hn : State.debug_prefix (pypy_debug_ensure_opened env s) = none :=
          e2.trans (hu hready).2
        simp only [pypy_debug_start, hprof, gt_iff_lt, hz, if_false, hn, Bool.false_eq_true]
        refine ⟨by simp [hl], ?_, fun _ => e1⟩
        intro hq
        simp only [e4] at hq
        cases hq
  | stop c =>
    simp only [step, openSections]
    have hfields : (pypy_debug_stop env c s).debug_ready = s.debug_ready ∧
        (pypy_debug_stop env c s).debug_profile = s.debug_profile ∧
        State.debug_prefix (pypy_debug_stop env c s) = s.debug_prefix := by
      simp only [pypy_debug_stop]
      split
      · split <;> exact ⟨rfl, rfl, rfl⟩
      · exact ⟨rfl, rfl, rfl⟩
    rw [hfields.1, hfields.2.1, hfields.2.2, stop_depth]
    refine ⟨?_, hu, hr⟩
    cases st with
    | nil => simp [hd]
    | cons c1 below =>
      simp only [List.length_cons, List.tail_cons] at hd ⊢
      rw [hd]
      split <;> omega
  | have_debug_prints =>
    simp only [step, openSections, PYPY_HAVE_DEBUG_PRINTS]
    split
    · exact ⟨hd, hu, hr⟩
    · refine ⟨e3.trans hd, ?_, fun _ => e1⟩
      intro hq
      rw [e4] at hq
      cases hq
  | op_have_debug_prints => exact ⟨hd, hu, hr⟩

/-- After any sequence of calls under profiling, run from a state in which no
section is open and the configuration is unresolved, the counter is the
number of open sections. -/
theorem run_profiling_depth {env : Env} {v : CStr} (h : env.PYPYLOG = some v) (hv : v ≠ [])
    (hc : colon ∉ v) (cs : List Call) :
    ∀ (st : List CStr) (s : State),
      s.pypy_ignoring_nested_prints = (st.length : Nat) →
      (s.debug_ready = false → s.debug_profile = false ∧ s.debug_prefix = none) →
      (s.debug_ready = true → s.debug_profile = true) →
      (run env cs s).pypy_ignoring_nested_prints = ((openSections cs st).length : Nat) := by
  induction cs with
  | nil => intro st s hd _ _; exact hd
  | cons c cs ih =>
    intro st s h1 h2 h3
    obtain ⟨k1, k2, k3⟩ := step_profiling h hv hc c st s h1 h2 h3
    rw [run_cons, openSections_cons]
    exact ih _ _ k1 k2 k3

/-! ## Logging off -/

theorem ensure_off {env : Env} (h : env.PYPYLOG = none ∨ env.PYPYLOG = some []) (s : State) :
    (pypy_debug_ensure_opened env s).debug_profile = s.debug_profile ∧
      State.debug_prefix (pypy_debug_ensure_opened env s) = s.debug_prefix := by
  cases hready : s.debug_ready with
  | false =>
    rw [ensure_of_not_ready env s hready]
    exact open_off h s
  | true =>
    rw [ensure_of_ready env s hready]
    exact ⟨rfl, rfl⟩

theorem stopsMatched_cons (c : Call) (cs : List Call) (st : List CStr)
    (h : stopsMatched (c :: cs) st.length = true) :
    stopsMatched [c] st.length = true ∧
      stopsMatched cs (openSections [c] st).length = true := by
  cases c with
  | start c => exact ⟨rfl, h⟩
  | stop c =>
    cases st with
    | nil => simp [stopsMatched] at h
    | cons c1 below => exact ⟨rfl, h⟩
  | have_debug_prints => exact ⟨rfl, h⟩
  | op_have_debug_prints => exact ⟨rfl, h⟩

/-- One call with logging off, the call closing only an open section: no
record is written and the counter is the number of open sections. -/
theorem step_off {env : Env} (h : env.PYPYLOG = none ∨ env.PYPYLOG = some [])
    (call : Call) (st : List CStr) (s : State)
    (hprof : s.debug_profile = false) (hpre : s.debug_prefix = none)
    (hd : s.pypy_ignoring_nested_prints = (st.length : Nat))
    (hm : stopsMatched [call] st.length = true) :
    (step env s call).debug_profile = false ∧ State.debug_prefix (step env s call) = none ∧
      (step env s call).pypy_ignoring_nested_prints = ((openSections [call] st).length : Nat) ∧
      records (step env s call) = records s := by
  obtain ⟨e1, e2⟩ := ensure_off h s
  have e3 := ensure_depth env s
  have e4 := ensure_records env s
  cases call with
  | start c =>
    simp only [step, openSections, List.length_cons]
    by_cases hz : 0 < s.pypy_ignoring_nested_prints
    · rw [start_of_ignoring env c s hprof hz]
      exact ⟨hprof, hpre, by simp only [hd]; simp, rfl⟩
    · have hl : st.length = 0 := by omega
      have hn : State.debug_prefix (pypy_debug_ensure_opened env s) = none := e2.trans hpre
      simp only [pypy_debug_start, hprof, gt_iff_lt, hz, if_false, hn, Bool.false_eq_true]
      exact ⟨e1.trans hprof, trivial, by simp [hl], e4⟩
  | stop c =>
    cases st with
    | nil => simp [stopsMatched] at hm
    | cons c1 below =>
      simp only [List.length_cons] at hd
      simp only [step, openSections, List.tail_cons]
      rw [stop_of_ignoring env c s hprof (by omega)]
      exact ⟨hprof, hpre, by simp only [hd]; simp, rfl⟩
  | have_debug_prints =>
    simp only [step, openSections, PYPY_HAVE_DEBUG_PRINTS]
    split
    · exact ⟨hprof, hpre, hd, rfl⟩
    · exact ⟨e1.trans hprof, e2.trans hpre, e3.trans hd, e4⟩
  | op_have_debug_prints => exact ⟨hprof, hpre, hd, rfl⟩

/-- After a sequence of calls with logging off in which every stop closes an
open section, no record has been written and the counter is the number of
open sections. -/
theorem run_off {env : Env} (h : env.PYPYLOG = none ∨ env.PYPYLOG = some [])
    (cs : List Call) :
    ∀ (st : List CStr) (s : State), s.debug_profile = false → s.debug_prefix = none →
      s.pypy_ignoring_nested_prints = (st.length : Nat) →
      stopsMatched cs st.length = true →
      (run env cs s).pypy_ignoring_nested_prints = ((openSections cs st).length : Nat) ∧
        records (run env cs s) = records s := by
  induction cs with
  | nil => intro st s _ _ hd _; exact ⟨hd, rfl⟩
  | cons c cs ih =>
    intro st s h1 h2 h3 h4
    obtain ⟨m1, m2⟩ := stopsMatched_cons c cs st h4
    obtain ⟨k1, k2, k3, k4⟩ := step_off h c st s h1 h2 h3 m1
    rw [run_cons, openSections_cons]
    obtain ⟨r1, r2⟩ := ih _ _ k1 k2 k3 m2
    exact ⟨r1, r2.trans k4⟩

/-! ## The prints-allowed query -/

theorem have_debug_prints_fst (env : Env) (s : State) :
    (PYPY_HAVE_DEBUG_PRINTS env s).1 = decide (s.pypy_ignoring_nested_prints = 0) := by
  unfold PYPY_HAVE_DEBUG_PRINTS
  split <;> simp_all

/-! ## The resolver run from the initial state -/

/-- The sink and the library calls of `pypy_debug_open` run from the initial
state, in terms of the mode fields `m` sets and the destination `dest`. -/
theorem open_init_of_dest {env : Env} {v : CStr} (h : env.PYPYLOG = some v) (hv : v ≠ [])
    (m : State) (dest : CStr) (hm : pypy_debug_open_mode v (init.emit Effect.getenv) = (m, dest))
    (hfile : m.pypy_debug_file = none) (heff : m.effects = [Effect.getenv]) :
    (pypy_debug_open env init).pypy_debug_file
        = (if dest = str_dash ∨ env.fopen_ok dest = false then some FILE.stderr
           else some (FILE.opened dest str_w)) ∧
    (pypy_debug_open env init).effects
        = (if dest = str_dash then [Effect.getenv]
           else [Effect.getenv, Effect.fopen dest str_w]) := by
  rw [open_of_nonempty h hv, hm]
  by_cases hdash : dest = str_dash
  · simp [pypy_debug_open_file, hdash, hfile, heff]
  · cases hok : env.fopen_ok dest <;>
      simp [pypy_debug_open_file, hdash, heff, fopen, hok, State.emit]

theorem open_init_off {env : Env} (h : env.PYPYLOG = none ∨ env.PYPYLOG = some []) :
    pypy_debug_open env init =
      { init with pypy_debug_file := some FILE.stderr, debug_ready := true,
                  effects := [Effect.getenv] } := by
  rw [open_of_empty h]
  rfl

/-- The sink `pypy_debug_open` resolves, run from a state whose stream is
still NULL, in terms of the mode fields `m` sets and the destination `dest`. -/
theorem open_sink {env : Env} {v : CStr} (h : env.PYPYLOG = some v) (hv : v ≠ [])
    (s m : State) (dest : CStr)
    (hm : pypy_debug_open_mode v (s.emit Effect.getenv) = (m, dest))
    (hfile : m.pypy_debug_file = none) :
    (pypy_debug_open env s).pypy_debug_file
        = (if dest = str_dash ∨ env.fopen_ok dest = false then some FILE.stderr
           else some (FILE.opened dest str_w)) := by
  rw [open_of_nonempty h hv, hm]
  by_cases hdash : dest = str_dash
  · simp [pypy_debug_open_file, hdash, hfile]
  · cases hok : env.fopen_ok dest <;>
      simp [pypy_debug_open_file, hdash, fopen, hok, State.emit]

/-- The resolver writes no record. -/
theorem open_fprintf_mem (env : Env) (s : State) (file : Option FILE) (t : Int) (k c : CStr)
    (h : Effect.fprintf file t k c ∈ (pypy_debug_open env s).effects) :
    Effect.fprintf file t k c ∈ s.effects := by
  simp only [pypy_debug_open, pypy_debug_open_file, pypy_debug_open_mode, State.emit] at h
  repeat' split at h
  all_goals simpa using h

theorem ensure_fprintf_mem (env : Env) (s : State) (file : Option FILE) (t : Int) (k c : CStr)
    (h : Effect.fprintf file t k c ∈ (pypy_debug_ensure_opened env s).effects) :
    Effect.fprintf file t k c ∈ s.effects := by
  unfold pypy_debug_ensure_opened at h
  split at h
  · exact open_fprintf_mem env s file t k c h
  · exact h

theorem display_fprintf_mem (env : Env) (k0 c0 : CStr) (s : State) (file : Option FILE)
    (t : Int) (k c : CStr)
    (h : Effect.fprintf file t k c ∈ (display_startstop env k0 c0 s).effects) :
    Effect.fprintf file t k c ∈ s.effects ∨ file = s.pypy_debug_file := by
  simp only [display_startstop, State.emit, List.mem_append, List.mem_singleton] at h
  rcases h with h | h
  · exact Or.inl h
  · right
    injection h

/-- Under conditional logging whose resolver yields the sink `F`, every record
of a well-nested sequence run at depth 0 is written to `F`. -/
theorem run_conditional_sink {env : Env} {p d : CStr}
    (h : env.PYPYLOG = some (p ++ colon :: d)) (hp : colon ∉ p) (F : FILE)
    (hF : ∀ s : State, s.pypy_debug_file = none →
      (pypy_debug_open env s).pypy_debug_file = some F) (f : Sections) :
    ∀ s : State, s.debug_profile = false → s.pypy_ignoring_nested_prints = 0 →
      (s.debug_ready = true → s.debug_prefix = some p ∧ s.pypy_debug_file = some F) →
      (s.debug_ready = false → s.pypy_debug_file = none) →
      (∀ file t k c, Effect.fprintf file t k c ∈ s.effects → file = some F) →
      (run env f.calls s).debug_profile = false ∧
      (run env f.calls s).pypy_ignoring_nested_prints = 0 ∧
      ((run env f.calls s).debug_ready = true →
        State.debug_prefix (run env f.calls s) = some p ∧
        (run env f.calls s).pypy_debug_file = some F) ∧
      (s.debug_ready = true → (run env f.calls s).debug_ready = true) ∧
      ((run env f.calls s).debug_ready = false → (run env f.calls s).pypy_debug_file = none) ∧
      (∀ file t k c, Effect.fprintf file t k c ∈ (run env f.calls s).effects →
        file = some F) := by
  induction f with
  | done => intro s h1 h2 h3 h4 h5; exact ⟨h1, h2, h3, id, h4, h5⟩
  | sect c body rest ihb ihr =>
    intro s hprof hd hpre hun heff
    obtain ⟨e1, e2⟩ := ensure_conditional h hp s hprof (fun hr => (hpre hr).1)
    have e3 := ensure_depth env s
    have e4 := ensure_ready env s
    have e5 : (pypy_debug_ensure_opened env s).pypy_debug_file = some F := by
      cases hr : s.debug_ready with
      | false => rw [ensure_of_not_ready env s hr]; exact hF s (hun hr)
      | true => rw [ensure_of_ready env s hr]; exact (hpre hr).2
    have e6 : ∀ file t k c,
        Effect.fprintf file t k c ∈ (pypy_debug_ensure_opened env s).effects →
        file = some F :=
      fun file t k c hm => heff file t k c (ensure_fprintf_mem env s file t k c hm)
    simp only [Sections.calls, run_cons, run_append, step]
    rw [start_conditional h hp c s hprof (fun hr => (hpre hr).1) hd]
    generalize pypy_debug_ensure_opened env s = s1 at e1 e2 e3 e4 e5 e6 ⊢
    by_cases hm : startswith c p = true
    · simp only [hm, if_true]
      obtain ⟨b1, b2, b3, b4, _, b6⟩ :=
        ihb (display_startstop env str_start c s1) e2 (e3.trans hd)
          (fun _ => ⟨e1, e5⟩) (fun hr => by rw [display_ready, e4] at hr; cases hr)
          (fun file t k c hmem => by
            rcases display_fprintf_mem env _ _ s1 file t k c hmem with hm1 | hm1
            · exact e6 file t k c hm1
            · rw [hm1, e5])
      have b7 := b4 e4
      rw [stop_of_zero env c _ b2]
      obtain ⟨r1, r2, r3, r4, r5, r6⟩ :=
        ihr (display_startstop env str_stop c
              (run env body.calls (display_startstop env str_start c s1)))
          b1 b2 b3 (fun hr => by rw [display_ready, b7] at hr; cases hr)
          (fun file t k c hmem => by
            rcases display_fprintf_mem env _ _ _ file t k c hmem with hm1 | hm1
            · exact b6 file t k c hm1
            · rw [hm1]; exact (b3 b7).2)
      exact ⟨r1, r2, r3, fun _ => r4 b7, r5, r6⟩
    · simp only [hm, if_false, Bool.false_eq_true]
      have h1 : (0 : Int) < 1 := by decide
      rw [run_ignoring env body { s1 with pypy_ignoring_nested_prints := 1 } e2 h1,
        stop_of_ignoring env c { s1 with pypy_ignoring_nested_prints := 1 } e2 h1]
      obtain ⟨r1, r2, r3, r4, r5, r6⟩ :=
        ihr { s1 with pypy_ignoring_nested_prints := 1 - 1 }
          e2 (by simp) (fun _ => ⟨e1, e5⟩) (fun hr => by rw [e4] at hr; cases hr) e6
      exact ⟨r1, r2, r3, fun _ => r4 e4, r5, r6⟩

theorem conditionalRecords_nil (f : Sections) : conditionalRecords [] f = allRecords f := by
  induction f with
  | done => rfl
  | sect c body rest ihb ihr => simp [conditionalRecords, allRecords, ihb, ihr]

/-! ## The sink in reachable states -/

/-- The stream `pypy_debug_open` resolves depends on the state only through
the stream it finds. -/
theorem open_file_of_none (env : Env) (s : State) (h : s.pypy_debug_file = none) :
    (pypy_debug_open env s).pypy_debug_file = (pypy_debug_open env init).pypy_debug_file := by
  simp only [pypy_debug_open, pypy_debug_open_file, pypy_debug_open_mode, State.emit, init]
  repeat' split
  all_goals simp_all

theorem ensure_sink (env : Env) (s : State)
    (hu : s.debug_ready = false → s.pypy_debug_file = none)
    (hr : s.debug_ready = true →
      s.pypy_debug_file = (pypy_debug_open env init).pypy_debug_file) :
    (pypy_debug_ensure_opened env s).pypy_debug_file
      = (pypy_debug_open env init).pypy_debug_file := by
  cases hready : s.debug_ready with
  | false =>
    rw [ensure_of_not_ready env s hready]
    exact open_file_of_none env s (hu hready)
  | true =>
    rw [ensure_of_ready env s hready]
    exact hr hready

theorem start_ready_file (env : Env) (c : CStr) (s : State) :
    ((pypy_debug_start env c s).debug_ready = s.debug_ready ∧
      (pypy_debug_start env c s).pypy_debug_file = s.pypy_debug_file) ∨
    ((pypy_debug_start env c s).debug_ready = (pypy_debug_ensure_opened env s).debug_ready ∧
      (pypy_debug_start env c s).pypy_debug_file
        = (pypy_debug_ensure_opened env s).pypy_debug_file) := by
  simp only [pypy_debug_start]
  repeat' split
  all_goals first
    | exact Or.inl ⟨rfl, rfl⟩
    | exact Or.inr ⟨rfl, rfl⟩

theorem stop_ready_file (env : Env) (c : CStr) (s : State) :
    (pypy_debug_stop env c s).debug_ready = s.debug_ready ∧
      (pypy_debug_stop env c s).pypy_debug_file = s.pypy_debug_file := by
  simp only [pypy_debug_stop]
  repeat' split
  all_goals exact ⟨rfl, rfl⟩

/-- One call keeps the stream NULL until the configuration is resolved and
equal to the resolved sink afterwards. -/
theorem step_sink (env : Env) (call : Call) (s : State)
    (hu : s.debug_ready = false → s.pypy_debug_file = none)
    (hr : s.debug_ready = true →
      s.pypy_debug_file = (pypy_debug_open env init).pypy_debug_file) :
    ((step env s call).debug_ready = false → (step env s call).pypy_debug_file = none) ∧
    ((step env s call).debug_ready = true →
      (step env s call).pypy_debug_file = (pypy_debug_open env init).pypy_debug_file) := by
  have e1 := ensure_sink env s hu hr
  have e2 := ensure_ready env s
  cases call with
  | start c =>
    simp only [step]
    rcases start_ready_file env c s with ⟨a, b⟩ | ⟨a, b⟩
    · rw [a, b]; exact ⟨hu, hr⟩
    · rw [a, b, e2, e1]
      exact ⟨fun hq => (by cases hq), fun _ => rfl⟩
  | stop c =>
    simp only [step]
    obtain ⟨a, b⟩ := stop_ready_file env c s
    rw [a, b]; exact ⟨hu, hr⟩
  | have_debug_prints =>
    simp only [step, PYPY_HAVE_DEBUG_PRINTS]
    split
    · exact ⟨hu, hr⟩
    · rw [e2, e1]
      exact ⟨fun hq => (by cases hq), fun _ => rfl⟩
  | op_have_debug_prints => exact ⟨hu, hr⟩

theorem run_sink (env : Env) (cs : List Call) :
    ∀ s : State, (s.debug_ready = false → s.pypy_debug_file = none) →
      (s.debug_ready = true →
        s.pypy_debug_file = (pypy_debug_open env init).pypy_debug_file) →
      ((run env cs s).debug_ready = false → (run env cs s).pypy_debug_file = none) ∧
      ((run env cs s).debug_ready = true →
        (run env cs s).pypy_debug_file = (pypy_debug_open env init).pypy_debug_file) := by
  induction cs with
  | nil => intro s hu hr; exact ⟨hu, hr⟩
  | cons c cs ih =>
    intro s hu hr
    obtain ⟨k1, k2⟩ := step_sink env c s hu hr
    exact ih _ k1 k2

/-! ## The mode flags in reachable states -/

theorem start_mode_fields (env : Env) (c : CStr) (s : State) :
    ((pypy_debug_start env c s).debug_ready = s.debug_ready ∧
      (pypy_debug_start env c s).debug_profile = s.debug_profile ∧
      State.debug_prefix (pypy_debug_start env c s) = s.debug_prefix) ∨
    ((pypy_debug_start env c s).debug_ready = (pypy_debug_ensure_opened env s).debug_ready ∧
      (pypy_debug_start env c s).debug_profile
        = (pypy_debug_ensure_opened env s).debug_profile ∧
      State.debug_prefix (pypy_debug_start env c s)
        = State.debug_prefix (pypy_debug_ensure_opened env s)) := by
  simp only [pypy_debug_start]
  repeat' split
  all_goals first
    | exact Or.inl ⟨rfl, rfl, rfl⟩
    | exact Or.inr ⟨rfl, rfl, rfl⟩

theorem stop_mode_fields (env : Env) (c : CStr) (s : State) :
    (pypy_debug_stop env c s).debug_ready = s.debug_ready ∧
      (pypy_debug_stop env c s).debug_profile = s.debug_profile ∧
      State.debug_prefix (pypy_debug_stop env c s) = s.debug_prefix := by
  simp only [pypy_debug_stop]
  repeat' split
  all_goals exact ⟨rfl, rfl, rfl⟩

/-- The resolver sets at most one of the two mode flags. -/
theorem open_modes (env : Env) (s : State) (hp : s.debug_profile = false)
    (hx : s.debug_prefix = none) :
    (pypy_debug_open env s).debug_profile = true →
      State.debug_prefix (pypy_debug_open env s) = none := by
  simp only [pypy_debug_open, pypy_debug_open_file, pypy_debug_open_mode, State.emit]
  repeat' split
  all_goals simp_all

theorem ensure_modes (env : Env) (s : State)
    (h1 : s.debug_profile = true → s.debug_prefix = none)
    (h2 : s.debug_ready = false → s.debug_profile = false ∧ s.debug_prefix = none) :
    (pypy_debug_ensure_opened env s).debug_profile = true →
      State.debug_prefix (pypy_debug_ensure_opened env s) = none := by
  cases hready : s.debug_ready with
  | false =>
    rw [ensure_of_not_ready env s hready]
    exact open_modes env s (h2 hready).1 (h2 hready).2
  | true =>
    rw [ensure_of_ready env s hready]
    exact h1

/-- One call keeps the two mode flags exclusive, and unset until the
configuration is resolved. -/
theorem step_modes (env : Env) (call : Call) (s : State)
    (h1 : s.debug_profile = true → s.debug_prefix = none)
    (h2 : s.debug_ready = false → s.debug_profile = false ∧ s.debug_prefix = none) :
    ((step env s call).debug_profile = true → State.debug_prefix (step env s call) = none) ∧
    ((step env s call).debug_ready = false →
      (step env s call).debug_profile = false ∧ State.debug_prefix (step env s call) = none) := by
  have e1 := ensure_modes env s h1 h2
  have e2 := ensure_ready env s
  cases call with
  | start c =>
    simp only [step]
    rcases start_mode_fields env c s with ⟨a, b, d⟩ | ⟨a, b, d⟩
    · rw [a, b, d]; exact ⟨h1, h2⟩
    · rw [a, b, d, e2]
      exact ⟨e1, fun hq => (by cases hq)⟩
  | stop c =>
    simp only [step]
    obtain ⟨a, b, d⟩ := stop_mode_fields env c s
    rw [a, b, d]; exact ⟨h1, h2⟩
  | have_debug_prints =>
    simp only [step, PYPY_HAVE_DEBUG_PRINTS]
    split
    · exact ⟨h1, h2⟩
    · rw [e2]
      exact ⟨e1, fun hq => (by cases hq)⟩
  | op_have_debug_prints => exact ⟨h1, h2⟩

theorem run_modes (env : Env) (cs : List Call) :
    ∀ s : State, (s.debug_profile = true → s.debug_prefix = none) →
      (s.debug_ready = false → s.debug_profile = false ∧ s.debug_prefix = none) →
      ((run env cs s).debug_profile = true → State.debug_prefix (run env cs s) = none) ∧
      ((run env cs s).debug_ready = false →
        (run env cs s).debug_profile = false ∧ State.debug_prefix (run env cs s) = none) := by
  induction cs with
  | nil => intro s h1 h2; exact ⟨h1, h2⟩
  | cons c cs ih =>
    intro s h1 h2
    obtain ⟨k1, k2⟩ := step_modes env c s h1 h2
    exact ih _ k1 k2

/-- Once the configuration is resolved, a call leaves the mode flags alone. -/
theorem step_modes_fixed (env : Env) (call : Call) (s : State) (hr : s.debug_ready = true) :
    (step env s call).debug_ready = true ∧
      (step env s call).debug_profile = s.debug_profile ∧
      State.debug_prefix (step env s call) = s.debug_prefix := by
  have e := ensure_of_ready env s hr
  cases call with
  | start c =>
    simp only [step]
    rcases start_mode_fields env c s with ⟨a, b, d⟩ | ⟨a, b, d⟩
    · rw [a, b, d]; exact ⟨hr, rfl, rfl⟩
    · rw [a, b, d, e]; exact ⟨hr, rfl, rfl⟩
  | stop c =>
    simp only [step]
    obtain ⟨a, b, d⟩ := stop_mode_fields env c s
    rw [a, b, d]; exact ⟨hr, rfl, rfl⟩
  | have_debug_prints =>
    simp only [step, PYPY_HAVE_DEBUG_PRINTS]
    split
    · exact ⟨hr, rfl, rfl⟩
    · rw [e]; exact ⟨hr, rfl, rfl⟩
  | op_have_debug_prints => exact ⟨hr, rfl, rfl⟩

theorem run_modes_fixed (env : Env) (cs : List Call) :
    ∀ s : State, s.debug_ready = true →
      (run env cs s).debug_ready = true ∧
      (run env cs s).debug_profile = s.debug_profile ∧
      State.debug_prefix (run env cs s) = s.debug_prefix := by
  induction cs with
  | nil => intro s hr; exact ⟨hr, rfl, rfl⟩
  | cons c cs ih =>
    intro s hr
    obtain ⟨k1, k2, k3⟩ := step_modes_fixed env c s hr
    obtain ⟨r1, r2, r3⟩ := ih _ k1
    exact ⟨r1, r2.trans k2, r3.trans k3⟩

/-! ## Records are written to the resolved sink -/

theorem start_ready_of_depth (env : Env) (c : CStr) (s : State)
    (hd : 0 < s.pypy_ignoring_nested_prints → s.debug_ready = true) :
    (pypy_debug_start env c s).debug_ready = true := by
  have e := ensure_ready env s
  simp only [pypy_debug_start]
  split
  · exact e
  · split
    · rename_i hz
      exact hd hz
    · split
      · exact e
      · split <;> exact e

theorem start_fprintf_mem (env : Env) (c0 : CStr) (s : State) (file : Option FILE) (t : Int)
    (k c : CStr) (h : Effect.fprintf file t k c ∈ (pypy_debug_start env c0 s).effects) :
    Effect.fprintf file t k c ∈ s.effects ∨
      file = (pypy_debug_ensure_opened env s).pypy_debug_file := by
  have e := ensure_fprintf_mem env s file t k c
  simp only [pypy_debug_start] at h
  split at h
  · rcases display_fprintf_mem env _ _ _ file t k c h with h1 | h1
    · exact Or.inl (e h1)
    · exact Or.inr h1
  · split at h
    · exact Or.inl h
    · split at h
      · exact Or.inl (e h)
      · split at h
        · exact Or.inl (e h)
        · rcases display_fprintf_mem env _ _ _ file t k c h with h1 | h1
          · exact Or.inl (e h1)
          · exact Or.inr h1

theorem stop_fprintf_mem (env : Env) (c0 : CStr) (s : State) (file : Option FILE) (t : Int)
    (k c : CStr) (h : Effect.fprintf file t k c ∈ (pypy_debug_stop env c0 s).effects) :
    Effect.fprintf file t k c ∈ s.effects ∨ file = s.pypy_debug_file := by
  simp only [pypy_debug_stop] at h
  split at h
  · split at h
    · exact Or.inl h
    · exact display_fprintf_mem env _ _ _ file t k c h
  · exact display_fprintf_mem env _ _ _ file t k c h

/-- One call that closes only an open section: the configuration is resolved
whenever a section is open or the counter is positive, and every record so
far went to the resolved sink. -/
theorem step_written (env : Env) (call : Call) (st : List CStr) (s : State)
    (ha : st ≠ [] → s.debug_ready = true)
    (hb : 0 < s.pypy_ignoring_nested_prints → s.debug_ready = true)
    (hu : s.debug_ready = false → s.pypy_debug_file = none)
    (hr : s.debug_ready = true →
      s.pypy_debug_file = (pypy_debug_open env init).pypy_debug_file)
    (he : ∀ file t k c, Effect.fprintf file t k c ∈ s.effects →
      file = (pypy_debug_open env init).pypy_debug_file)
    (hm : stopsMatched [call] st.length = true) :
    (openSections [call] st ≠ [] → (step env s call).debug_ready = true) ∧
    (0 < (step env s call).pypy_ignoring_nested_prints → (step env s call).debug_ready = true) ∧
    (∀ file t k c, Effect.fprintf file t k c ∈ (step env s call).effects →
      file = (pypy_debug_open env init).pypy_debug_file) := by
  have e1 := ensure_sink env s hu hr
  cases call with
  | start c =>
    simp only [step]
    have hready := start_ready_of_depth env c s hb
    refine ⟨fun _ => hready, fun _ => hready, ?_⟩
    intro file t k c1 hmem
    rcases start_fprintf_mem env c s file t k c1 hmem with h1 | h1
    · exact he file t k c1 h1
    · rw [h1, e1]
  | stop c =>
    cases st with
    | nil => simp [stopsMatched] at hm
    | cons c1 below =>
      have hready : s.debug_ready = true := ha (List.cons_ne_nil _ _)
      simp only [step]
      obtain ⟨a, _⟩ := stop_ready_file env c s
      rw [a]
      refine ⟨fun _ => hready, fun _ => hready, ?_⟩
      intro file t k c2 hmem
      rcases stop_fprintf_mem env c s file t k c2 hmem with h1 | h1
      · exact he file t k c2 h1
      · rw [h1]; exact hr hready
  | have_debug_prints =>
    simp only [step, openSections, PYPY_HAVE_DEBUG_PRINTS]
    split
    · exact ⟨ha, hb, he⟩
    · have e2 := ensure_ready env s
      refine ⟨fun _ => e2, fun _ => e2, ?_⟩
      intro file t k c hmem
      exact he file t k c (ensure_fprintf_mem env s file t k c hmem)
  | op_have_debug_prints => exact ⟨ha, hb, he⟩

theorem run_written (env : Env) (cs : List Call) :
    ∀ (st : List CStr) (s : State),
      (st ≠ [] → s.debug_ready = true) →
      (0 < s.pypy_ignoring_nested_prints → s.debug_ready = true) →
      (s.debug_ready = false → s.pypy_debug_file = none) →
      (s.debug_ready = true →
        s.pypy_debug_file = (pypy_debug_open env init).pypy_debug_file) →
      (∀ file t k c, Effect.fprintf file t k c ∈ s.effects →
        file = (pypy_debug_open env init).pypy_debug_file) →
      stopsMatched cs st.length = true →
      (0 < (run env cs s).pypy_ignoring_nested_prints → (run env cs s).debug_ready = true) ∧
      (∀ file t k c, Effect.fprintf file t k c ∈ (run env cs s).effects →
        file = (pypy_debug_open env init).pypy_debug_file) := by
  induction cs with
  | nil => intro st s _ hb _ _ he _; exact ⟨hb, he⟩
  | cons c cs ih =>
    intro st s ha hb hu hr he hm
    obtain ⟨m1, m2⟩ := stopsMatched_cons c cs st hm
    obtain ⟨k1, k2, k3⟩ := step_written env c st s ha hb hu hr he m1
    obtain ⟨u1, u2⟩ := step_sink env c s hu hr
    rw [run_cons]
    exact ih _ _ k1 k2 u1 u2 k3 m2

/-! ## Monotonicity in the filter -/

theorem conditionalRecords_sublist {p q : CStr} (hpq : p <+: q) (f : Sections) :
    (conditionalRecords q f).Sublist (conditionalRecords p f) := by
  induction f with
  | done => exact List.Sublist.refl _
  | sect c body rest ihb ihr =>
    simp only [conditionalRecords]
    by_cases hq : q <+: c
    · have hp : p <+: c := List.IsPrefix.trans hpq hq
      simp only [hq, hp, if_true]
      exact List.Sublist.append
        (List.Sublist.cons₂ _ (List.Sublist.append ihb (List.Sublist.refl _))) ihr
    · simp only [hq, if_false, List.nil_append]
      exact List.Sublist.trans ihr (List.sublist_append_right _ _)

/-! ## The text of a record -/

theorem written_fprintf (file : Option FILE) (t : Int) (k c : CStr) :
    Effect.written (Effect.fprintf file t k c)
      = cstr "\x7b" ++ (llx t ++ (cstr "\x7d -" ++ (k ++ (cstr "- " ++ (c ++ cstr "\n"))))) := by
  rfl

theorem hexDigit_val (d : Nat) :
    (hexDigit d).val = if d % 16 < 10 then 48 + d % 16 else 87 + d % 16 := by
  unfold hexDigit
  split <;> rfl

theorem hexValue_hexDigit (d : Nat) : hexValue (hexDigit d) = some (d % 16) := by
  have hlt : d % 16 < 16 := Nat.mod_lt _ (by decide)
  unfold hexValue
  rw [hexDigit_val]
  by_cases h : d % 16 < 10
  · have h1 : 48 ≤ 48 + d % 16 ∧ 48 + d % 16 ≤ 57 := by omega
    simp only [h, if_true, h1, and_self]
    congr 1
    omega
  · have h1 : ¬ (48 ≤ 87 + d % 16 ∧ 87 + d % 16 ≤ 57) := by omega
    have h2 : 97 ≤ 87 + d % 16 ∧ 87 + d % 16 ≤ 102 := by omega
    simp only [h, if_false, h1, h2, and_self, if_true]
    congr 1
    omega

theorem hexDigit_val_ne (d : Nat) (h : d % 16 ≠ 0) : (hexDigit d).val ≠ 48 := by
  rw [hexDigit_val]
  split <;> omega

theorem llx_digits_acc (fuel : Nat) :
    ∀ (v : Nat) (acc : CStr), llx_digits fuel v acc = llx_digits fuel v [] ++ acc := by
  induction fuel with
  | zero => intro v acc; rfl
  | succ fuel ih =>
    intro v acc
    simp only [llx_digits]
    split
    · rfl
    · rw [ih (v / 16) (hexDigit v :: acc), ih (v / 16) [hexDigit v]]
      simp

theorem hexNumber_append (xs ys : CStr) :
    ∀ a : Nat, hexNumber a (xs ++ ys) = (hexNumber a xs).bind (fun n => hexNumber n ys) := by
  induction xs with
  | nil => intro a; rfl
  | cons ch xs ih =>
    intro a
    simp only [List.cons_append, hexNumber]
    cases hexValue ch with
    | none => rfl
    | some d => exact ih _

/-- The digits `%llx` produces denote the value, and the first of them is `'0'`
only for the value 0, whose numeral is the single digit. -/
theorem llx_digits_spec (fuel : Nat) :
    ∀ v : Nat, v < 16 ^ fuel → 0 < fuel →
      hexNumber 0 (llx_digits fuel v []) = some v ∧
      (v = 0 → llx_digits fuel v [] = [hexDigit 0]) ∧
      (0 < v → ∃ d rest, llx_digits fuel v [] = d :: rest ∧ d.val ≠ 48) := by
  induction fuel with
  | zero => intro v _ h0; exact absurd h0 (by decide)
  | succ fuel ih =>
    intro v hv _
    simp only [llx_digits]
    by_cases hq : v / 16 = 0
    · have hlt : v < 16 := by omega
      have hm : v % 16 = v := Nat.mod_eq_of_lt hlt
      simp only [hq, if_true]
      refine ⟨?_, ?_, ?_⟩
      · simp [hexNumber, hexValue_hexDigit, hm]
      · intro h0; rw [h0]
      · intro hpos
        exact ⟨hexDigit v, [], rfl, hexDigit_val_ne v (by omega)⟩
    · have hge : 16 ≤ v := by omega
      have hfuel : 0 < fuel := by
        cases fuel with
        | zero => simp at hv; omega
        | succ n => exact Nat.succ_pos n
      have hdiv : v / 16 < 16 ^ fuel := by
        rw [Nat.pow_succ] at hv
        exact Nat.div_lt_of_lt_mul (by rw [Nat.mul_comm]; exact hv)
      obtain ⟨i1, _, i3⟩ := ih (v / 16) hdiv hfuel
      simp only [hq, if_false]
      rw [llx_digits_acc fuel (v / 16) [hexDigit v]]
      refine ⟨?_, ?_, ?_⟩
      · rw [hexNumber_append, i1]
        simp only [Option.bind, hexNumber, hexValue_hexDigit]
        congr 1
        omega
      · intro h0; omega
      · intro _
        obtain ⟨d, rest, e, hd⟩ := i3 (by omega)
        exact ⟨d, rest ++ [hexDigit v], by rw [e]; rfl, hd⟩

theorem llx_spec (t : Int) :
    hexNumber 0 (llx t) = some (t % 2 ^ 64).toNat ∧
    (t % 2 ^ 64 = 0 → llx t = cstr "0") ∧
    (t % 2 ^ 64 ≠ 0 → ∀ rest : CStr, llx t ≠ cstr "0" ++ rest) := by
  have hnn : 0 ≤ t % 2 ^ 64 := Int.emod_nonneg _ (by decide)
  have hlt : t % 2 ^ 64 < 2 ^ 64 := Int.emod_lt_of_pos _ (by decide)
  have hv : (t % 2 ^ 64).toNat < 16 ^ 16 := by
    have : ((t % 2 ^ 64).toNat : Int) = t % 2 ^ 64 := Int.toNat_of_nonneg hnn
    have h16 : (16 : Nat) ^ 16 = 18446744073709551616 := by norm_num
    have h64 : (2 : Int) ^ 64 = 18446744073709551616 := by norm_num
    rw [h16]
    rw [h64] at hlt
    omega
  obtain ⟨k1, k2, k3⟩ := llx_digits_spec 16 (t % 2 ^ 64).toNat hv (by decide)
  refine ⟨k1, ?_, ?_⟩
  · intro h0
    have hz : (t % 2 ^ 64).toNat = 0 := by rw [h0]; rfl
    exact k2 hz
  · intro hne rest heq
    have hpos : 0 < (t % 2 ^ 64).toNat := by omega
    obtain ⟨d, r, e, hd⟩ := k3 hpos
    have e2 : llx t = d :: r := e
    rw [e2] at heq
    have hcons : cstr "0" ++ rest = (⟨48, by decide⟩ : CChar) :: rest := rfl
    rw [hcons] at heq
    injection heq with h1 _
    exact hd (congrArg Subtype.val h1)

/-! ## Runs that differ in the outcome of `fopen` -/

theorem forgetSink_eq_iff (a b : State) :
    a.forgetSink = b.forgetSink ↔
      a.pypy_ignoring_nested_prints = b.pypy_ignoring_nested_prints ∧
      a.debug_ready = b.debug_ready ∧ a.debug_profile = b.debug_profile ∧
      a.debug_prefix = b.debug_prefix ∧
      a.effects.map Effect.forgetSink = b.effects.map Effect.forgetSink := by
  cases a
  cases b
  simp [State.forgetSink]

theorem forgetSink_setDepth {a b : State} (h : a.forgetSink = b.forgetSink) (d : Int) :
    ({ a with pypy_ignoring_nested_prints := d } : State).forgetSink
      = ({ b with pypy_ignoring_nested_prints := d } : State).forgetSink := by
  rw [forgetSink_eq_iff] at h ⊢
  exact ⟨rfl, h.2⟩

theorem forgetSink_incr {a b : State} (h : a.forgetSink = b.forgetSink) :
    ({ a with pypy_ignoring_nested_prints := a.pypy_ignoring_nested_prints + 1 } :
        State).forgetSink
      = ({ b with pypy_ignoring_nested_prints := b.pypy_ignoring_nested_prints + 1 } :
        State).forgetSink := by
  have hd := ((forgetSink_eq_iff a b).1 h).1
  have := forgetSink_setDepth h (a.pypy_ignoring_nested_prints + 1)
  rw [this, hd]

theorem forgetSink_decr {a b : State} (h : a.forgetSink = b.forgetSink) :
    ({ a with pypy_ignoring_nested_prints := a.pypy_ignoring_nested_prints - 1 } :
        State).forgetSink
      = ({ b with pypy_ignoring_nested_prints := b.pypy_ignoring_nested_prints - 1 } :
        State).forgetSink := by
  have hd := ((forgetSink_eq_iff a b).1 h).1
  have := forgetSink_setDepth h (a.pypy_ignoring_nested_prints - 1)
  rw [this, hd]

theorem forgetSink_display {env1 env2 : Env} (hT : env1.rdtsc = env2.rdtsc) (k c : CStr)
    {a b : State} (h : a.forgetSink = b.forgetSink) :
    (display_startstop env1 k c a).forgetSink = (display_startstop env2 k c b).forgetSink := by
  rw [forgetSink_eq_iff] at h ⊢
  obtain ⟨h1, h2, h3, h4, h5⟩ := h
  have hl : a.effects.length = b.effects.length := by
    have := congrArg List.length h5
    simpa using this
  refine ⟨h1, h2, h3, h4, ?_⟩
  simp [display_startstop, State.emit, h5, hl, hT, Effect.forgetSink]

theorem forgetSink_open {env1 env2 : Env} (hP : env1.PYPYLOG = env2.PYPYLOG)
    {a b : State} (h : a.forgetSink = b.forgetSink) :
    (pypy_debug_open env1 a).forgetSink = (pypy_debug_open env2 b).forgetSink := by
  rw [forgetSink_eq_iff] at h ⊢
  obtain ⟨h1, h2, h3, h4, h5⟩ := h
  simp only [pypy_debug_open, pypy_debug_open_file, pypy_debug_open_mode, State.emit, hP]
  repeat' split
  all_goals simp_all [Effect.forgetSink]

theorem forgetSink_ensure {env1 env2 : Env} (hP : env1.PYPYLOG = env2.PYPYLOG)
    {a b : State} (h : a.forgetSink = b.forgetSink) :
    (pypy_debug_ensure_opened env1 a).forgetSink
      = (pypy_debug_ensure_opened env2 b).forgetSink := by
  have hr := ((forgetSink_eq_iff a b).1 h).2.1
  cases hb : b.debug_ready with
  | false =>
    rw [ensure_of_not_ready env1 a (hr.trans hb), ensure_of_not_ready env2 b hb]
    exact forgetSink_open hP h
  | true =>
    rw [ensure_of_ready env1 a (hr.trans hb), ensure_of_ready env2 b hb]
    exact h

theorem forgetSink_effects_length {a b : State} (h : a.forgetSink = b.forgetSink) :
    a.effects.length = b.effects.length := by
  have := congrArg List.length ((forgetSink_eq_iff a b).1 h).2.2.2.2
  simpa using this

theorem forgetSink_start {env1 env2 : Env} (hP : env1.PYPYLOG = env2.PYPYLOG)
    (hT : env1.rdtsc = env2.rdtsc) (c : CStr) {a b : State}
    (h : a.forgetSink = b.forgetSink) :
    (pypy_debug_start env1 c a).forgetSink = (pypy_debug_start env2 c b).forgetSink := by
  have he := forgetSink_ensure hP h
  have hl := forgetSink_effects_length he
  rw [forgetSink_eq_iff] at h he ⊢
  obtain ⟨h1, h2, h3, h4, h5⟩ := h
  obtain ⟨e1, e2, e3, e4, e5⟩ := he
  simp only [pypy_debug_start]
  repeat' split
  all_goals simp_all [display_startstop, State.emit, Effect.forgetSink]

theorem forgetSink_stop {env1 env2 : Env} (hT : env1.rdtsc = env2.rdtsc) (c : CStr)
    {a b : State} (h : a.forgetSink = b.forgetSink) :
    (pypy_debug_stop env1 c a).forgetSink = (pypy_debug_stop env2 c b).forgetSink := by
  have hl := forgetSink_effects_length h
  rw [forgetSink_eq_iff] at h ⊢
  obtain ⟨h1, h2, h3, h4, h5⟩ := h
  simp only [pypy_debug_stop]
  repeat' split
  all_goals simp_all [display_startstop, State.emit, Effect.forgetSink]

/-- One call made in two environments that differ only in the outcome of
`fopen`, in states that differ only in the sink. -/
theorem forgetSink_step {env1 env2 : Env} (hP : env1.PYPYLOG = env2.PYPYLOG)
    (hT : env1.rdtsc = env2.rdtsc) (call : Call) {a b : State}
    (h : a.forgetSink = b.forgetSink) :
    (step env1 a call).forgetSink = (step env2 b call).forgetSink := by
  cases call with
  | start c => exact forgetSink_start hP hT c h
  | stop c => exact forgetSink_stop hT c h
  | have_debug_prints =>
    have h1 := ((forgetSink_eq_iff a b).1 h).1
    simp only [step, PYPY_HAVE_DEBUG_PRINTS, h1]
    split
    · exact h
    · exact forgetSink_ensure hP h
  | op_have_debug_prints => exact h

theorem forgetSink_run {env1 env2 : Env} (hP : env1.PYPYLOG = env2.PYPYLOG)
    (hT : env1.rdtsc = env2.rdtsc) (cs : List Call) :
    ∀ a b : State, a.forgetSink = b.forgetSink →
      (run env1 cs a).forgetSink = (run env2 cs b).forgetSink := by
  induction cs with
  | nil => intro a b h; exact h
  | cons c cs ih => intro a b h; exact ih _ _ (forgetSink_step hP hT c h)

theorem written_forgetSink (e : Effect) : Effect.written e.forgetSink = Effect.written e := by
  cases e <;> rfl

theorem records_forgetSink (s : State) : records s.forgetSink = records s := by
  simp only [records, State.forgetSink, List.filterMap_map]
  congr 1
  funext e
  cases e <;> rfl

/-! ## The prefix matcher -/

theorem startswith_loop_shift (f g f1 g1 : Nat → Nat) (hf : ∀ j, f (j + 1) = f1 j)
    (hg : ∀ j, g (j + 1) = g1 j) (fuel : Nat) :
    ∀ i : Nat, startswith_loop f g fuel (i + 1)
      = (startswith_loop f1 g1 fuel i).map fun r => (r.1, r.2.map (· + 1)) := by
  induction fuel with
  | zero => intro i; rfl
  | succ fuel ih =>
    intro i
    simp only [startswith_loop, hf, hg, ih]
    split
    · split
      · rfl
      · cases startswith_loop f1 g1 fuel (i + 1) <;> rfl
    · rfl

/-- The loop over memory returns what `startswith` computes on the two
strings, within one iteration more than the length of `substr`, and reads
`str` no further than its terminating NUL. -/
theorem startswith_loop_spec (substr : CStr) :
    ∀ (str : CStr) (m1 m2 : Nat → Nat) (fuel : Nat), substr.length < fuel →
      ∃ reads : List Nat,
        startswith_loop (byteAt str m1) (byteAt substr m2) fuel 0
          = some (startswith str substr, reads) ∧
        ∀ i ∈ reads, i ≤ str.length := by
  induction substr with
  | nil =>
    intro str m1 m2 fuel hf
    cases fuel with
    | zero => exact absurd hf (Nat.lt_irrefl _)
    | succ fuel => exact ⟨[], by simp [startswith_loop, byteAt, startswith], by simp⟩
  | cons b bs ih =>
    intro str m1 m2 fuel hf
    cases fuel with
    | zero => exact absurd hf (Nat.not_lt_zero _)
    | succ fuel =>
      have hb : b.val ≠ 0 := Nat.pos_iff_ne_zero.1 b.property.1
      have hfuel : bs.length < fuel := by simpa using hf
      cases str with
      | nil =>
        refine ⟨[0], ?_, by simp⟩
        have h0 : (0 : Nat) ≠ b.val := fun e => hb e.symm
        simp [startswith_loop, byteAt, startswith, hb, h0]
      | cons a as =>
        by_cases hab : a = b
        · subst hab
          obtain ⟨reads, hr, hbound⟩ := ih as m1 m2 fuel hfuel
          refine ⟨0 :: reads.map (· + 1), ?_, ?_⟩
          · have hs := startswith_loop_shift (byteAt (a :: as) m1) (byteAt (a :: bs) m2)
              (byteAt as m1) (byteAt bs m2) (fun _ => rfl) (fun _ => rfl) fuel 0
            simp only [startswith_loop, byteAt, hs, hr]
            simp [hb, startswith]
          · intro i hi
            rcases List.mem_cons.1 hi with e | e
            · rw [e]; exact Nat.zero_le _
            · obtain ⟨j, hj, rfl⟩ := List.mem_map.1 e
              have := hbound j hj
              simp only [List.length_cons]
              omega
        · refine ⟨[0], ?_, by simp⟩
          have hv : a.val ≠ b.val := fun e => hab (Subtype.ext e)
          simp [startswith_loop, byteAt, startswith, hb, hv, hab]

/-! ## The claims -/

/-- C1. Conditional logging: with `PYPYLOG` of shape `prefix:dest`, the records
written by a well-nested sequence of start/stop calls run from the initial
state are exactly, in call order, the start and stop records of the sections
whose own category and the category of every enclosing section begin with the
prefix. -/
theorem conditional_logging_records (env : Env) (p d : CStr) (f : Sections)
    (hp : colon ∉ p) (h : env.PYPYLOG = some (p ++ colon :: d)) :
    records (run env f.calls init) = conditionalRecords p f := by
  have := (run_conditional h hp f init rfl rfl (by intro hr; cases hr)).2.2.2
  simpa [records, init] using this

/-- Scenario C: with `PYPYLOG=gc:out.log` the calls start("gc-minor"),
start("jit"), stop("jit"), stop("gc-minor") write exactly the start and the
stop record of gc-minor. -/
theorem conditional_logging_records_witness :
    colon ∉ cstr "gc" ∧
    (section1 "gc-minor" (section1 "jit" Sections.done)).calls
      = [Call.start (cstr "gc-minor"), Call.start (cstr "jit"),
         Call.stop (cstr "jit"), Call.stop (cstr "gc-minor")] ∧
    records (run (envWith "gc:out.log")
        (section1 "gc-minor" (section1 "jit" Sections.done)).calls init)
      = [(str_start, cstr "gc-minor"), (str_stop, cstr "gc-minor")] :=
  ⟨by decide, by decide,
    (conditional_logging_records (envWith "gc:out.log") (cstr "gc") (cstr "out.log")
      (section1 "gc-minor" (section1 "jit" Sections.done)) (by decide) (by decide)).trans
      (by decide)⟩

/-- C2, the behaviour of the code at the failing input: with `PYPYLOG=out.log`
(profiling) the calls start("gc"), stop("gc") run from the initial state write
the stop record only; no start record is written, whatever `fopen` and the
timestamp counter return. -/
theorem profiling_first_start_unrecorded (ok : CStr → Bool) (t : Nat → Int) :
    records (run ⟨some (cstr "out.log"), ok, t⟩
        [Call.start (cstr "gc"), Call.stop (cstr "gc")] init)
      = [(str_stop, cstr "gc")] := by
  have hv : cstr "out.log" ≠ [] := by decide
  have hc : colon ∉ cstr "out.log" := by decide
  have ho := @open_profiling ⟨some (cstr "out.log"), ok, t⟩ (cstr "out.log") rfl hv hc init
  have hr := open_records ⟨some (cstr "out.log"), ok, t⟩ init
  have hn : State.debug_prefix (pypy_debug_open ⟨some (cstr "out.log"), ok, t⟩ init) = none := ho.2
  have hs : pypy_debug_start ⟨some (cstr "out.log"), ok, t⟩ (cstr "gc") init
      = { pypy_debug_open ⟨some (cstr "out.log"), ok, t⟩ init with
          pypy_ignoring_nested_prints := 1 } := by
    have e : pypy_debug_ensure_opened ⟨some (cstr "out.log"), ok, t⟩ init
        = pypy_debug_open ⟨some (cstr "out.log"), ok, t⟩ init := ensure_of_not_ready _ _ rfl
    simp only [pypy_debug_start, e, hn]
    rfl
  simp only [run_cons, run_nil, step, hs]
  simp only [pypy_debug_stop, ho.1]
  simp [display_startstop, hr, records, init, State.emit] at hr ⊢
  exact hr

/-- C3. Gating of nested prints in conditional and full logging: with `PYPYLOG`
of shape `prefix:dest` (prefix possibly empty), at every point of a well-nested
sequence of start/stop calls run from the initial state, each of the two
prints-allowed queries is true iff the category of every open section begins
with the prefix; in particular the counter is 0 outside every section, and
directly inside a top-level section it is 0 when the category of that section
begins with the prefix and 1 when it does not. -/
theorem conditional_prints_allowed (env : Env) (p d : CStr) (f : Sections) (n : Nat)
    (hp : colon ∉ p) (h : env.PYPYLOG = some (p ++ colon :: d)) :
    ((PYPY_HAVE_DEBUG_PRINTS env (run env (f.calls.take n) init)).1 = true ↔
        ∀ c ∈ openSections (f.calls.take n) [], p <+: c) ∧
    (OP_HAVE_DEBUG_PRINTS (run env (f.calls.take n) init) = true ↔
        ∀ c ∈ openSections (f.calls.take n) [], p <+: c) ∧
    (openSections (f.calls.take n) [] = [] →
        (run env (f.calls.take n) init).pypy_ignoring_nested_prints = 0) ∧
    (∀ c, openSections (f.calls.take n) [] = [c] →
        (run env (f.calls.take n) init).pypy_ignoring_nested_prints
          = if p <+: c then 0 else 1) := by
  have hd := run_conditional_depth h hp (f.calls.take n) [] init rfl
    (by intro hr; cases hr) rfl
  have hq : (run env (f.calls.take n) init).pypy_ignoring_nested_prints = 0 ↔
      ∀ c ∈ openSections (f.calls.take n) [], p <+: c := by
    rw [hd, ← ignoredDepth_eq_zero]
    exact Int.natCast_eq_zero
  refine ⟨?_, ?_, ?_, ?_⟩
  · rw [have_debug_prints_fst, decide_eq_true_iff]
    exact hq
  · rw [OP_HAVE_DEBUG_PRINTS, decide_eq_true_iff]
    exact hq
  · intro ho
    rw [hd, ho]
    rfl
  · intro c ho
    rw [hd, ho]
    by_cases hc : p <+: c <;> simp [ignoredDepth, hc]

/-- Scenario E: with `PYPYLOG=gc:out.log`, start("jit") at top level gives
depth 1 and the matching stop("jit") gives depth 0; inside the top-level
section gc-minor the depth is 0 and prints are allowed. -/
theorem conditional_prints_allowed_witness :
    (run (envWith "gc:out.log") [Call.start (cstr "jit")] init).pypy_ignoring_nested_prints = 1 ∧
    (run (envWith "gc:out.log")
      [Call.start (cstr "jit"), Call.stop (cstr "jit")] init).pypy_ignoring_nested_prints = 0 ∧
    (run (envWith "gc:out.log")
      [Call.start (cstr "gc-minor")] init).pypy_ignoring_nested_prints = 0 ∧
    OP_HAVE_DEBUG_PRINTS (run (envWith "gc:out.log") [Call.start (cstr "gc-minor")] init)
      = true :=
  ⟨((conditional_prints_allowed (envWith "gc:out.log") (cstr "gc") (cstr "out.log")
        (section1 "jit" Sections.done) 1 (by decide) (by decide)).2.2.2
        (cstr "jit") (by decide)).trans (by decide),
   (conditional_prints_allowed (envWith "gc:out.log") (cstr "gc") (cstr "out.log")
        (section1 "jit" Sections.done) 2 (by decide) (by decide)).2.2.1 (by decide),
   ((conditional_prints_allowed (envWith "gc:out.log") (cstr "gc") (cstr "out.log")
        (section1 "gc-minor" Sections.done) 1 (by decide) (by decide)).2.2.2
        (cstr "gc-minor") (by decide)).trans (by decide),
   (conditional_prints_allowed (envWith "gc:out.log") (cstr "gc") (cstr "out.log")
        (section1 "gc-minor" Sections.done) 1 (by decide) (by decide)).2.1.2 (by decide)⟩

/-- C4. Profiling disables nested prints: with a non-empty `PYPYLOG` that
contains no `':'`, at every point of a well-nested sequence of start/stop calls
run from the initial state at which some section is open (strictly between a
start call and its matching stop call), the counter is at least 1 and both
prints-allowed queries are false. -/
theorem profiling_disables_nested_prints (env : Env) (v : CStr) (f : Sections) (n : Nat)
    (hv : v ≠ []) (hc : colon ∉ v) (h : env.PYPYLOG = some v)
    (hopen : openSections (f.calls.take n) [] ≠ []) :
    1 ≤ (run env (f.calls.take n) init).pypy_ignoring_nested_prints ∧
    (PYPY_HAVE_DEBUG_PRINTS env (run env (f.calls.take n) init)).1 = false ∧
    OP_HAVE_DEBUG_PRINTS (run env (f.calls.take n) init) = false := by
  have hd := run_profiling_depth h hv hc (f.calls.take n) [] init rfl
    (by intro _; exact ⟨rfl, rfl⟩) (by intro hr; cases hr)
  have hl : 0 < (openSections (f.calls.take n) []).length := List.length_pos.2 hopen
  have h1 : 1 ≤ (run env (f.calls.take n) init).pypy_ignoring_nested_prints := by
    rw [hd]; omega
  have hne : ¬ (run env (f.calls.take n) init).pypy_ignoring_nested_prints = 0 := by omega
  refine ⟨h1, ?_, ?_⟩
  · rw [have_debug_prints_fst, decide_eq_false_iff_not]
    exact hne
  · rw [OP_HAVE_DEBUG_PRINTS, decide_eq_false_iff_not]
    exact hne

/-- With `PYPYLOG=out.log`, between start("gc") and stop("gc") the counter is
at least 1 and prints are not allowed. -/
theorem profiling_disables_nested_prints_witness :
    cstr "out.log" ≠ [] ∧ colon ∉ cstr "out.log" ∧
    1 ≤ (run (envWith "out.log") [Call.start (cstr "gc")] init).pypy_ignoring_nested_prints ∧
    (PYPY_HAVE_DEBUG_PRINTS (envWith "out.log")
      (run (envWith "out.log") [Call.start (cstr "gc")] init)).1 = false ∧
    OP_HAVE_DEBUG_PRINTS (run (envWith "out.log") [Call.start (cstr "gc")] init) = false :=
  ⟨by decide, by decide,
    profiling_disables_nested_prints (envWith "out.log") (cstr "out.log")
      (section1 "gc" Sections.done) 1 (by decide) (by decide) (by decide) (by decide)⟩

/-- C5. Logging off: when `PYPYLOG` is absent or empty, a well-nested sequence
of start/stop calls run from the initial state writes no boundary record, up
to any point and as a whole, and at every point at which some section is open
both prints-allowed queries are false. -/
theorem logging_off (env : Env) (f : Sections) (n : Nat)
    (h : env.PYPYLOG = none ∨ env.PYPYLOG = some []) :
    records (run env (f.calls.take n) init) = [] ∧
    records (run env f.calls init) = [] ∧
    (openSections (f.calls.take n) [] ≠ [] →
      (PYPY_HAVE_DEBUG_PRINTS env (run env (f.calls.take n) init)).1 = false ∧
      OP_HAVE_DEBUG_PRINTS (run env (f.calls.take n) init) = false) := by
  obtain ⟨hd, hr⟩ := run_off h (f.calls.take n) [] init rfl rfl rfl
    (stopsMatched_take_calls f n 0)
  have hfull := (run_off h (f.calls.take f.calls.length) [] init rfl rfl rfl
    (stopsMatched_take_calls f f.calls.length 0)).2
  rw [List.take_length] at hfull
  refine ⟨hr, hfull, ?_⟩
  intro hopen
  have hl : 0 < (openSections (f.calls.take n) []).length := List.length_pos.2 hopen
  have hne : ¬ (run env (f.calls.take n) init).pypy_ignoring_nested_prints = 0 := by omega
  constructor
  · rw [have_debug_prints_fst, decide_eq_false_iff_not]
    exact hne
  · rw [OP_HAVE_DEBUG_PRINTS, decide_eq_false_iff_not]
    exact hne

/-- Scenario A: with `PYPYLOG` empty, start("gc") and stop("gc") write nothing,
and prints are not allowed between them. -/
theorem logging_off_witness :
    records (run (envWith "") [Call.start (cstr "gc"), Call.stop (cstr "gc")] init) = [] ∧
    OP_HAVE_DEBUG_PRINTS (run (envWith "") [Call.start (cstr "gc")] init) = false :=
  ⟨(logging_off (envWith "") (section1 "gc" Sections.done) 1 (Or.inr (by decide))).2.1,
   ((logging_off (envWith "") (section1 "gc" Sections.done) 1 (Or.inr (by decide))).2.2
      (by decide)).2⟩

/-- C6. Depth round trip: for every environment and every state reachable from
the initial state by any calls, a well-nested sequence of start/stop calls
leaves `pypy_ignoring_nested_prints` at the value it had before the sequence,
the counter is not negative at any point of the sequence, and after an
arbitrary sequence of calls from the initial state the counter is not
negative. -/
theorem depth_round_trip (env : Env) (before : List Call) (f : Sections) (n : Nat)
    (cs : List Call) :
    (run env f.calls (run env before init)).pypy_ignoring_nested_prints
      = (run env before init).pypy_ignoring_nested_prints ∧
    0 ≤ (run env (f.calls.take n) (run env before init)).pypy_ignoring_nested_prints ∧
    0 ≤ (run env cs init).pypy_ignoring_nested_prints := by
  have h0 : (0 : Int) ≤ init.pypy_ignoring_nested_prints := le_refl _
  have hb := run_depth_nonneg env before init h0
  exact ⟨run_depth_roundtrip env f _ hb, run_depth_nonneg env _ _ hb,
    run_depth_nonneg env cs init h0⟩

/-- C7. Mode selection by string shape, for `pypy_debug_open` run from the
initial state: `PYPYLOG` absent or empty leaves `debug_profile` 0 and
`debug_prefix` NULL and opens nothing; a non-empty value with no `':'` sets
`debug_profile` to 1, leaves `debug_prefix` NULL and takes the whole value as
destination; a value `p:d` with no `':'` in `p` sets `debug_prefix` to `p`
(the text before the first `':'`), leaves `debug_profile` 0 and takes `d`
(everything after the first `':'`) as destination.  The destination is the
value of `filename` at source line 75, the name passed to `fopen` unless it
is `"-"`. -/
theorem mode_selection (env : Env) :
    (env.PYPYLOG = none ∨ env.PYPYLOG = some [] →
      (pypy_debug_open env init).debug_profile = false ∧
      State.debug_prefix (pypy_debug_open env init) = none ∧
      (pypy_debug_open env init).effects = [Effect.getenv]) ∧
    (∀ v : CStr, env.PYPYLOG = some v → v ≠ [] → colon ∉ v →
      (pypy_debug_open env init).debug_profile = true ∧
      State.debug_prefix (pypy_debug_open env init) = none ∧
      (pypy_debug_open_mode v (init.emit Effect.getenv)).2 = v ∧
      (pypy_debug_open env init).effects
        = (if v = str_dash then [Effect.getenv] else [Effect.getenv, Effect.fopen v str_w])) ∧
    (∀ p d : CStr, env.PYPYLOG = some (p ++ colon :: d) → colon ∉ p →
      (pypy_debug_open env init).debug_profile = false ∧
      State.debug_prefix (pypy_debug_open env init) = some p ∧
      (pypy_debug_open_mode (p ++ colon :: d) (init.emit Effect.getenv)).2 = d ∧
      (pypy_debug_open env init).effects
        = (if d = str_dash then [Effect.getenv] else [Effect.getenv, Effect.fopen d str_w])) := by
  refine ⟨?_, ?_, ?_⟩
  · intro h
    rw [open_init_off h]
    exact ⟨rfl, rfl, rfl⟩
  · intro v h hv hc
    have hm := open_mode_profiling hc (init.emit Effect.getenv)
    have ho := open_profiling h hv hc init
    exact ⟨ho.1, ho.2, by rw [hm], (open_init_of_dest h hv _ _ hm rfl rfl).2⟩
  · intro p d h hp
    have hm := open_mode_conditional d hp (init.emit Effect.getenv)
    have ho := open_conditional h hp init
    exact ⟨ho.2, ho.1, by rw [hm], (open_init_of_dest h (by simp) _ _ hm rfl rfl).2⟩

/-- With `PYPYLOG=a:b:c` the prefix is `a` and the destination is `b:c`; with
`PYPYLOG=out.log` the mode is profiling and the destination is `out.log`;
with `PYPYLOG` empty neither flag is set. -/
theorem mode_selection_witness :
    (State.debug_prefix (pypy_debug_open (envWith "a:b:c") init) = some (cstr "a") ∧
      (pypy_debug_open (envWith "a:b:c") init).effects
        = [Effect.getenv, Effect.fopen (cstr "b:c") str_w]) ∧
    ((pypy_debug_open (envWith "out.log") init).debug_profile = true ∧
      (pypy_debug_open (envWith "out.log") init).effects
        = [Effect.getenv, Effect.fopen (cstr "out.log") str_w]) ∧
    ((pypy_debug_open (envWith "") init).debug_profile = false ∧
      State.debug_prefix (pypy_debug_open (envWith "") init) = none) :=
  ⟨⟨((mode_selection (envWith "a:b:c")).2.2 (cstr "a") (cstr "b:c")
        (by decide) (by decide)).2.1,
    (((mode_selection (envWith "a:b:c")).2.2 (cstr "a") (cstr "b:c")
        (by decide) (by decide)).2.2.2).trans (by decide)⟩,
   ⟨((mode_selection (envWith "out.log")).2.1 (cstr "out.log")
        (by decide) (by decide) (by decide)).1,
    (((mode_selection (envWith "out.log")).2.1 (cstr "out.log")
        (by decide) (by decide) (by decide)).2.2.2).trans (by decide)⟩,
   ⟨((mode_selection (envWith "")).1 (Or.inr (by decide))).1,
    ((mode_selection (envWith "")).1 (Or.inr (by decide))).2.1⟩⟩

/-- C8. Sink resolution never fails: for every value of `PYPYLOG` and every
outcome of `fopen`, `pypy_debug_ensure_opened` run from the initial state
returns with `debug_ready` set and `pypy_debug_file` not NULL, and run after
any sequence of calls it returns with `debug_ready` set and the same sink; the
sink is standard error when the value is absent or empty, when the
destination is `"-"` and when `fopen` of the destination fails, and it is the
stream opened with mode `"w"` under the destination name otherwise. -/
theorem sink_resolution (env : Env) :
    (pypy_debug_ensure_opened env init).debug_ready = true ∧
    (pypy_debug_ensure_opened env init).pypy_debug_file.isSome = true ∧
    (∀ cs : List Call,
      (pypy_debug_ensure_opened env (run env cs init)).debug_ready = true ∧
      (pypy_debug_ensure_opened env (run env cs init)).pypy_debug_file
        = (pypy_debug_ensure_opened env init).pypy_debug_file) ∧
    (env.PYPYLOG = none ∨ env.PYPYLOG = some [] →
      (pypy_debug_ensure_opened env init).pypy_debug_file = some FILE.stderr) ∧
    (∀ v : CStr, env.PYPYLOG = some v → v ≠ [] → colon ∉ v →
      (pypy_debug_ensure_opened env init).pypy_debug_file
        = (if v = str_dash ∨ env.fopen_ok v = false then some FILE.stderr
           else some (FILE.opened v str_w))) ∧
    (∀ p d : CStr, env.PYPYLOG = some (p ++ colon :: d) → colon ∉ p →
      (pypy_debug_ensure_opened env init).pypy_debug_file
        = (if d = str_dash ∨ env.fopen_ok d = false then some FILE.stderr
           else some (FILE.opened d str_w))) := by
  have e : pypy_debug_ensure_opened env init = pypy_debug_open env init :=
    ensure_of_not_ready env init rfl
  rw [e]
  refine ⟨rfl, open_file_isSome env init, ?_, ?_, ?_, ?_⟩
  · intro cs
    obtain ⟨k1, k2⟩ := run_sink env cs init (fun _ => rfl) (fun hr => by cases hr)
    exact ⟨ensure_ready env _, ensure_sink env _ k1 k2⟩
  · intro h
    rw [open_init_off h]
  · intro v h hv hc
    exact (open_init_of_dest h hv _ _ (open_mode_profiling hc _) rfl rfl).1
  · intro p d h hp
    exact (open_init_of_dest h (by simp) _ _ (open_mode_conditional d hp _) rfl rfl).1

/-- The sink is standard error for `PYPYLOG=gc:-`, and for `PYPYLOG=gc:` when
`fopen("")` fails; it is the opened file for `PYPYLOG=gc:out.log` when `fopen`
succeeds. -/
theorem sink_resolution_witness :
    (pypy_debug_ensure_opened (envWith "gc:-") init).pypy_debug_file = some FILE.stderr ∧
    (pypy_debug_ensure_opened ⟨some (cstr "gc:"), fun _ => false, fun _ => 0⟩ init).pypy_debug_file
      = some FILE.stderr ∧
    (pypy_debug_ensure_opened (envWith "gc:out.log") init).pypy_debug_file
      = some (FILE.opened (cstr "out.log") str_w) ∧
    (pypy_debug_ensure_opened (envWith "") init).pypy_debug_file = some FILE.stderr :=
  ⟨((sink_resolution (envWith "gc:-")).2.2.2.2.2 (cstr "gc") (cstr "-")
      (by decide) (by decide)).trans (by decide),
   ((sink_resolution ⟨some (cstr "gc:"), fun _ => false, fun _ => 0⟩).2.2.2.2.2 (cstr "gc") []
      (by decide) (by decide)).trans (by decide),
   ((sink_resolution (envWith "gc:out.log")).2.2.2.2.2 (cstr "gc") (cstr "out.log")
      (by decide) (by decide)).trans (by decide),
   (sink_resolution (envWith "")).2.2.2.1 (Or.inr (by decide))⟩

/-- C10. Resolver idempotence: in every state and environment, calling
`pypy_debug_ensure_opened` twice in a row gives the same state, library calls
included, as calling it once; once `debug_ready` is set a call changes
nothing (no `getenv`, no `fopen`, no field); and no call changes
`pypy_ignoring_nested_prints`. -/
theorem resolver_idempotent (env : Env) (s : State) :
    pypy_debug_ensure_opened env (pypy_debug_ensure_opened env s)
      = pypy_debug_ensure_opened env s ∧
    (s.debug_ready = true → pypy_debug_ensure_opened env s = s) ∧
    (pypy_debug_ensure_opened env s).pypy_ignoring_nested_prints
      = s.pypy_ignoring_nested_prints :=
  ⟨ensure_of_ready env _ (ensure_ready env s), ensure_of_ready env s, ensure_depth env s⟩

/-- With `PYPYLOG=gc:out.log`, a second call of the resolver leaves the state
of the first call, with its two library calls, as it is. -/
theorem resolver_idempotent_witness :
    (pypy_debug_ensure_opened (envWith "gc:out.log") init).debug_ready = true ∧
    pypy_debug_ensure_opened (envWith "gc:out.log")
        (pypy_debug_ensure_opened (envWith "gc:out.log") init)
      = pypy_debug_ensure_opened (envWith "gc:out.log") init ∧
    (pypy_debug_ensure_opened (envWith "gc:out.log") init).effects
      = [Effect.getenv, Effect.fopen (cstr "out.log") str_w] :=
  ⟨by decide,
   (resolver_idempotent (envWith "gc:out.log")
      (pypy_debug_ensure_opened (envWith "gc:out.log") init)).2.1 (by decide),
   by decide⟩

/-- C9. Full logging: with `PYPYLOG` beginning with `':'` the resolved prefix is
the empty string, and for every well-nested sequence of start/stop calls run
from the initial state every section of every category writes both its start
and its stop record, which are the records of conditional logging with the
empty prefix; at every point the counter is 0 and both prints-allowed queries
are true; and with `PYPYLOG=:-` the sink is standard error, to which every
record is written. -/
theorem full_logging (env : Env) (d : CStr) (f : Sections) (n : Nat)
    (h : env.PYPYLOG = some (colon :: d)) :
    State.debug_prefix (pypy_debug_ensure_opened env init) = some [] ∧
    (pypy_debug_ensure_opened env init).debug_profile = false ∧
    records (run env f.calls init) = allRecords f ∧
    allRecords f = conditionalRecords [] f ∧
    (run env (f.calls.take n) init).pypy_ignoring_nested_prints = 0 ∧
    (PYPY_HAVE_DEBUG_PRINTS env (run env (f.calls.take n) init)).1 = true ∧
    OP_HAVE_DEBUG_PRINTS (run env (f.calls.take n) init) = true ∧
    (d = str_dash →
      (pypy_debug_ensure_opened env init).pypy_debug_file = some FILE.stderr ∧
      ∀ file t k c, Effect.fprintf file t k c ∈ (run env f.calls init).effects →
        file = some FILE.stderr) := by
  have hp : colon ∉ ([] : CStr) := List.not_mem_nil _
  have h0 : env.PYPYLOG = some ([] ++ colon :: d) := h
  obtain ⟨e1, e2⟩ := ensure_conditional h0 hp init rfl (by intro hr; cases hr)
  have hrec := (run_conditional h0 hp f init rfl rfl (by intro hr; cases hr)).2.2.2
  have hd := run_conditional_depth h0 hp (f.calls.take n) [] init rfl
    (by intro hr; cases hr) rfl
  have hz : ignoredDepth [] (openSections (f.calls.take n) []) = 0 :=
    (ignoredDepth_eq_zero _ _).2 (fun c _ => List.nil_prefix)
  rw [hz] at hd
  refine ⟨e1, e2, ?_, (conditionalRecords_nil f).symm, hd, ?_, ?_, ?_⟩
  · rw [hrec, conditionalRecords_nil]
    rfl
  · rw [have_debug_prints_fst, decide_eq_true_iff]
    exact hd
  · rw [OP_HAVE_DEBUG_PRINTS, decide_eq_true_iff]
    exact hd
  · intro hdash
    subst hdash
    have hF : ∀ s : State, s.pypy_debug_file = none →
        (pypy_debug_open env s).pypy_debug_file = some FILE.stderr := by
      intro s hs
      have := open_sink h0 (by simp) s _ _
        (open_mode_conditional str_dash hp (s.emit Effect.getenv)) hs
      simpa using this
    refine ⟨?_, ?_⟩
    · rw [ensure_of_not_ready env init rfl]
      exact hF init rfl
    · exact (run_conditional_sink h0 hp FILE.stderr hF f init rfl rfl
        (by intro hr; cases hr) (fun _ => rfl)
        (by intro file t k c hm; cases hm)).2.2.2.2.2

/-- Scenario D: with `PYPYLOG=:-` the sections gc and jit, one nested in the
other, write all four boundary records, and the sink is standard error. -/
theorem full_logging_witness :
    records (run (envWith ":-") (section1 "gc" (section1 "jit" Sections.done)).calls init)
      = [(str_start, cstr "gc"), (str_start, cstr "jit"),
         (str_stop, cstr "jit"), (str_stop, cstr "gc")] ∧
    (pypy_debug_ensure_opened (envWith ":-") init).pypy_debug_file = some FILE.stderr :=
  ⟨((full_logging (envWith ":-") (cstr "-") (section1 "gc" (section1 "jit" Sections.done)) 0
      (by decide)).2.2.1).trans (by decide),
   ((full_logging (envWith ":-") (cstr "-") (section1 "gc" (section1 "jit" Sections.done)) 0
      (by decide)).2.2.2.2.2.2.2 (by decide)).1⟩

/-- C11. Prints-allowed query: in every state `PYPY_HAVE_DEBUG_PRINTS` and
`OP_HAVE_DEBUG_PRINTS` are both true iff `pypy_ignoring_nested_prints` is 0;
neither changes the counter (the second changes nothing at all);
`PYPY_HAVE_DEBUG_PRINTS` leaves the state of `pypy_debug_ensure_opened` when
its answer is true and leaves the state untouched when its answer is false. -/
theorem prints_allowed_query (env : Env) (s : State) :
    ((PYPY_HAVE_DEBUG_PRINTS env s).1 = true ↔ s.pypy_ignoring_nested_prints = 0) ∧
    (OP_HAVE_DEBUG_PRINTS s = true ↔ s.pypy_ignoring_nested_prints = 0) ∧
    (PYPY_HAVE_DEBUG_PRINTS env s).2.pypy_ignoring_nested_prints
      = s.pypy_ignoring_nested_prints ∧
    step env s Call.op_have_debug_prints = s ∧
    ((PYPY_HAVE_DEBUG_PRINTS env s).1 = true →
      (PYPY_HAVE_DEBUG_PRINTS env s).2 = pypy_debug_ensure_opened env s) ∧
    ((PYPY_HAVE_DEBUG_PRINTS env s).1 = false → (PYPY_HAVE_DEBUG_PRINTS env s).2 = s) := by
  refine ⟨?_, ?_, ?_, rfl, ?_, ?_⟩
  · rw [have_debug_prints_fst, decide_eq_true_iff]
  · rw [OP_HAVE_DEBUG_PRINTS, decide_eq_true_iff]
  · unfold PYPY_HAVE_DEBUG_PRINTS
    split
    · rfl
    · exact ensure_depth env s
  · unfold PYPY_HAVE_DEBUG_PRINTS
    split
    · intro hq; cases hq
    · intro _; rfl
  · unfold PYPY_HAVE_DEBUG_PRINTS
    split
    · intro _; rfl
    · intro hq; cases hq

/-- With `PYPYLOG=gc:out.log`: in the initial state the query is true and
resolves the configuration; inside the ignored section jit it is false and
changes nothing. -/
theorem prints_allowed_query_witness :
    (PYPY_HAVE_DEBUG_PRINTS (envWith "gc:out.log") init).1 = true ∧
    (PYPY_HAVE_DEBUG_PRINTS (envWith "gc:out.log") init).2
      = pypy_debug_ensure_opened (envWith "gc:out.log") init ∧
    (PYPY_HAVE_DEBUG_PRINTS (envWith "gc:out.log")
      (run (envWith "gc:out.log") [Call.start (cstr "jit")] init)).1 = false ∧
    (PYPY_HAVE_DEBUG_PRINTS (envWith "gc:out.log")
      (run (envWith "gc:out.log") [Call.start (cstr "jit")] init)).2
      = run (envWith "gc:out.log") [Call.start (cstr "jit")] init :=
  ⟨by decide,
   (prints_allowed_query (envWith "gc:out.log") init).2.2.2.2.1 (by decide),
   by decide,
   (prints_allowed_query (envWith "gc:out.log")
      (run (envWith "gc:out.log") [Call.start (cstr "jit")] init)).2.2.2.2.2 (by decide)⟩

/-- C14. Inherited suppression step: in every state outside profiling whose
counter `d` is positive, for every category, `pypy_debug_start` sets the
counter to `d + 1` and changes nothing else (no record, no library call, mode,
prefix and sink untouched), with the same result for any other category; and
`pypy_debug_stop` sets the counter to `d - 1` and changes nothing else. -/
theorem inherited_suppression_step (env : Env) (c c2 : CStr) (s : State)
    (hp : s.debug_profile = false) (hd : 0 < s.pypy_ignoring_nested_prints) :
    pypy_debug_start env c s
      = { s with pypy_ignoring_nested_prints := s.pypy_ignoring_nested_prints + 1 } ∧
    pypy_debug_start env c2 s = pypy_debug_start env c s ∧
    records (pypy_debug_start env c s) = records s ∧
    pypy_debug_stop env c s
      = { s with pypy_ignoring_nested_prints := s.pypy_ignoring_nested_prints - 1 } ∧
    records (pypy_debug_stop env c s) = records s := by
  have h1 := start_of_ignoring env c s hp hd
  have h2 := start_of_ignoring env c2 s hp hd
  have h3 := stop_of_ignoring env c s hp hd
  refine ⟨h1, h2.trans h1.symm, ?_, h3, ?_⟩
  · rw [h1]; rfl
  · rw [h3]; rfl

/-- With `PYPYLOG=gc:out.log`, inside the ignored section jit (depth 1) a start
of gc-minor, whose category begins with the prefix, only raises the depth to
2, and a stop lowers it to 0; neither writes. -/
theorem inherited_suppression_step_witness :
    (run (envWith "gc:out.log") [Call.start (cstr "jit")] init).pypy_ignoring_nested_prints = 1 ∧
    (pypy_debug_start (envWith "gc:out.log") (cstr "gc-minor")
      (run (envWith "gc:out.log") [Call.start (cstr "jit")] init)).pypy_ignoring_nested_prints
      = 2 ∧
    records (pypy_debug_start (envWith "gc:out.log") (cstr "gc-minor")
      (run (envWith "gc:out.log") [Call.start (cstr "jit")] init)) = [] ∧
    records (pypy_debug_stop (envWith "gc:out.log") (cstr "gc-minor")
      (run (envWith "gc:out.log") [Call.start (cstr "jit")] init)) = [] :=
  ⟨by decide,
   (congrArg State.pypy_ignoring_nested_prints
      (inherited_suppression_step (envWith "gc:out.log") (cstr "gc-minor") (cstr "jit")
        (run (envWith "gc:out.log") [Call.start (cstr "jit")] init)
        (by decide) (by decide)).1).trans (by decide),
   ((inherited_suppression_step (envWith "gc:out.log") (cstr "gc-minor") (cstr "jit")
        (run (envWith "gc:out.log") [Call.start (cstr "jit")] init)
        (by decide) (by decide)).2.2.1).trans (by decide),
   ((inherited_suppression_step (envWith "gc:out.log") (cstr "gc-minor") (cstr "jit")
        (run (envWith "gc:out.log") [Call.start (cstr "jit")] init)
        (by decide) (by decide)).2.2.2.2).trans (by decide)⟩

/-- C15. Profiling step semantics once resolved: in every state with
`debug_ready` and `debug_profile` both set and counter `d ≥ 0`, for every
category, `pypy_debug_start` sets the counter to `d + 1` and writes a start
record for the category, and `pypy_debug_stop` writes a stop record for the
category and sets the counter to `d - 1` when `d > 0`, leaving it 0 when
`d = 0`; each makes the one `fprintf` call and no other library call. -/
theorem profiling_step (env : Env) (c : CStr) (s : State)
    (hr : s.debug_ready = true) (hp : s.debug_profile = true)
    (hd : 0 ≤ s.pypy_ignoring_nested_prints) :
    (pypy_debug_start env c s).pypy_ignoring_nested_prints
      = s.pypy_ignoring_nested_prints + 1 ∧
    (pypy_debug_start env c s).effects
      = s.effects ++ [Effect.fprintf s.pypy_debug_file (env.rdtsc s.effects.length)
          str_start c] ∧
    records (pypy_debug_start env c s) = records s ++ [(str_start, c)] ∧
    (pypy_debug_stop env c s).pypy_ignoring_nested_prints
      = (if 0 < s.pypy_ignoring_nested_prints then s.pypy_ignoring_nested_prints - 1 else 0) ∧
    (pypy_debug_stop env c s).effects
      = s.effects ++ [Effect.fprintf s.pypy_debug_file (env.rdtsc s.effects.length)
          str_stop c] ∧
    records (pypy_debug_stop env c s) = records s ++ [(str_stop, c)] := by
  have e := ensure_of_ready env s hr
  have hs : pypy_debug_start env c s = display_startstop env str_start c
      { s with pypy_ignoring_nested_prints := s.pypy_ignoring_nested_prints + 1 } := by
    simp only [pypy_debug_start, hp, if_true, e]
  have ht : pypy_debug_stop env c s = display_startstop env str_stop c
      { s with pypy_ignoring_nested_prints :=
          (if 0 < s.pypy_ignoring_nested_prints then s.pypy_ignoring_nested_prints - 1
           else 0) } := by
    by_cases hz : 0 < s.pypy_ignoring_nested_prints
    · simp [pypy_debug_stop, hp, hz]
    · have h0 : s.pypy_ignoring_nested_prints = 0 := by omega
      rw [stop_of_zero env c s h0]
      simp only [hz, if_false]
      rw [← h0]
  rw [hs, ht]
  exact ⟨rfl, rfl, by rw [records_display]; rfl, rfl, rfl, by rw [records_display]; rfl⟩

/-- With `PYPYLOG=out.log` resolved by a first query, start("gc") gives depth 1
and a start record, and stop("gc") at depth 0 leaves 0 and writes a stop
record. -/
theorem profiling_step_witness :
    (pypy_debug_start (envWith "out.log") (cstr "gc")
      (pypy_debug_ensure_opened (envWith "out.log") init)).pypy_ignoring_nested_prints = 1 ∧
    records (pypy_debug_start (envWith "out.log") (cstr "gc")
      (pypy_debug_ensure_opened (envWith "out.log") init)) = [(str_start, cstr "gc")] ∧
    (pypy_debug_stop (envWith "out.log") (cstr "gc")
      (pypy_debug_ensure_opened (envWith "out.log") init)).pypy_ignoring_nested_prints = 0 ∧
    records (pypy_debug_stop (envWith "out.log") (cstr "gc")
      (pypy_debug_ensure_opened (envWith "out.log") init)) = [(str_stop, cstr "gc")] :=
  ⟨((profiling_step (envWith "out.log") (cstr "gc")
      (pypy_debug_ensure_opened (envWith "out.log") init)
      (by decide) (by decide) (by decide)).1).trans (by decide),
   ((profiling_step (envWith "out.log") (cstr "gc")
      (pypy_debug_ensure_opened (envWith "out.log") init)
      (by decide) (by decide) (by decide)).2.2.1).trans (by decide),
   ((profiling_step (envWith "out.log") (cstr "gc")
      (pypy_debug_ensure_opened (envWith "out.log") init)
      (by decide) (by decide) (by decide)).2.2.2.1).trans (by decide),
   ((profiling_step (envWith "out.log") (cstr "gc")
      (pypy_debug_ensure_opened (envWith "out.log") init)
      (by decide) (by decide) (by decide)).2.2.2.2.2).trans (by decide)⟩

/-- C19. Modes are mutually exclusive: in every state reachable from the
initial state by any calls, for every environment, `debug_profile` set implies
`debug_prefix` NULL, and both are unset while `debug_ready` is false; so the
flags are in exactly one of the shapes Off (0, NULL), Profiling (1, NULL) and
Filtered or Full (0, not NULL); and once `debug_ready` is set, no further
calls change `debug_ready`, `debug_profile` or `debug_prefix`. -/
theorem modes_exclusive (env : Env) (cs later : List Call) :
    ((run env cs init).debug_profile = true → State.debug_prefix (run env cs init) = none) ∧
    ((run env cs init).debug_ready = false →
      (run env cs init).debug_profile = false ∧ State.debug_prefix (run env cs init) = none) ∧
    (((run env cs init).debug_profile = false ∧ State.debug_prefix (run env cs init) = none) ∨
      ((run env cs init).debug_profile = true ∧ State.debug_prefix (run env cs init) = none) ∨
      ((run env cs init).debug_profile = false ∧
        State.debug_prefix (run env cs init) ≠ none)) ∧
    ((run env cs init).debug_ready = true →
      (run env later (run env cs init)).debug_ready = true ∧
      (run env later (run env cs init)).debug_profile = (run env cs init).debug_profile ∧
      State.debug_prefix (run env later (run env cs init))
        = State.debug_prefix (run env cs init)) := by
  obtain ⟨k1, k2⟩ := run_modes env cs init (fun h => (by cases h)) (fun _ => ⟨rfl, rfl⟩)
  refine ⟨k1, k2, ?_, run_modes_fixed env later _⟩
  cases hprof : (run env cs init).debug_profile with
  | true => exact Or.inr (Or.inl ⟨rfl, k1 hprof⟩)
  | false =>
    cases hx : State.debug_prefix (run env cs init) with
    | none => exact Or.inl ⟨rfl, rfl⟩
    | some p => exact Or.inr (Or.inr ⟨rfl, fun h => (by cases h)⟩)

/-- With `PYPYLOG=out.log` resolved by start("gc"), the flags are those of
profiling, and a following stop("gc") and start("jit") leave them alone. -/
theorem modes_exclusive_witness :
    (run (envWith "out.log") [Call.start (cstr "gc")] init).debug_ready = true ∧
    (run (envWith "out.log") [Call.start (cstr "gc")] init).debug_profile = true ∧
    State.debug_prefix (run (envWith "out.log") [Call.start (cstr "gc")] init) = none ∧
    (run (envWith "out.log") [Call.stop (cstr "gc"), Call.start (cstr "jit")]
      (run (envWith "out.log") [Call.start (cstr "gc")] init)).debug_profile
      = (run (envWith "out.log") [Call.start (cstr "gc")] init).debug_profile :=
  ⟨by decide, by decide,
   (modes_exclusive (envWith "out.log") [Call.start (cstr "gc")] []).1 (by decide),
   ((modes_exclusive (envWith "out.log") [Call.start (cstr "gc")]
      [Call.stop (cstr "gc"), Call.start (cstr "jit")]).2.2.2 (by decide)).2.1⟩

/-- C17. Sink is resolved before any write: after any sequence of start, stop
and prints-allowed calls from the initial state in which every stop closes an
open section (every initial part has at least as many starts as stops), a
positive `pypy_ignoring_nested_prints` implies `debug_ready`, and every record
was written with `pypy_debug_file` not NULL, namely to the sink the resolver
yields. -/
theorem sink_resolved_before_write (env : Env) (cs : List Call)
    (h : stopsMatched cs 0 = true) :
    (0 < (run env cs init).pypy_ignoring_nested_prints →
      (run env cs init).debug_ready = true) ∧
    (∀ file t k c, Effect.fprintf file t k c ∈ (run env cs init).effects →
      file ≠ none ∧ file = (pypy_debug_ensure_opened env init).pypy_debug_file) := by
  obtain ⟨k1, k2⟩ := run_written env cs [] init (fun hne => absurd rfl hne)
    (fun hd => absurd hd (by decide)) (fun _ => rfl) (fun hr => (by cases hr))
    (fun file t k c hm => (by cases hm)) h
  refine ⟨k1, ?_⟩
  intro file t k c hm
  have hf := k2 file t k c hm
  have hs := open_file_isSome env init
  rw [ensure_of_not_ready env init rfl]
  refine ⟨?_, hf⟩
  rw [hf]
  intro hn
  rw [hn] at hs
  cases hs

/-- With `PYPYLOG=gc:-`, the two records of start("gc"), stop("gc") are written
to standard error, and the configuration is resolved inside the ignored
section jit. -/
theorem sink_resolved_before_write_witness :
    stopsMatched [Call.start (cstr "gc"), Call.stop (cstr "gc")] 0 = true ∧
    (run (envWith "gc:-") [Call.start (cstr "gc"), Call.stop (cstr "gc")] init).effects
      = [Effect.getenv, Effect.fprintf (some FILE.stderr) 0 str_start (cstr "gc"),
         Effect.fprintf (some FILE.stderr) 0 str_stop (cstr "gc")] ∧
    (run (envWith "gc:-") [Call.start (cstr "jit")] init).debug_ready = true :=
  ⟨by decide, by decide,
   (sink_resolved_before_write (envWith "gc:-") [Call.start (cstr "jit")] (by decide)).1
     (by decide)⟩

/-- C18. Monotonicity in the prefix: when `p` is a byte-wise prefix of `q`, for
every well-nested sequence of start/stop calls run from the initial state, the
records written under conditional logging with prefix `q` are a subsequence
of those written under conditional logging with prefix `p`, and at every
point where a prints-allowed query is true under `q` it is true under `p`. -/
theorem filter_monotone (envp envq : Env) (p q dp dq : CStr) (f : Sections) (n : Nat)
    (hpq : p <+: q) (hp : colon ∉ p) (hq : colon ∉ q)
    (h1 : envp.PYPYLOG = some (p ++ colon :: dp))
    (h2 : envq.PYPYLOG = some (q ++ colon :: dq)) :
    (records (run envq f.calls init)).Sublist (records (run envp f.calls init)) ∧
    (OP_HAVE_DEBUG_PRINTS (run envq (f.calls.take n) init) = true →
      OP_HAVE_DEBUG_PRINTS (run envp (f.calls.take n) init) = true) ∧
    ((PYPY_HAVE_DEBUG_PRINTS envq (run envq (f.calls.take n) init)).1 = true →
      (PYPY_HAVE_DEBUG_PRINTS envp (run envp (f.calls.take n) init)).1 = true) := by
  have rp := (run_conditional h1 hp f init rfl rfl (by intro hr; cases hr)).2.2.2
  have rq := (run_conditional h2 hq f init rfl rfl (by intro hr; cases hr)).2.2.2
  have dp1 := run_conditional_depth h1 hp (f.calls.take n) [] init rfl
    (by intro hr; cases hr) rfl
  have dq1 := run_conditional_depth h2 hq (f.calls.take n) [] init rfl
    (by intro hr; cases hr) rfl
  have key : (run envq (f.calls.take n) init).pypy_ignoring_nested_prints = 0 →
      (run envp (f.calls.take n) init).pypy_ignoring_nested_prints = 0 := by
    intro hz
    rw [dq1] at hz
    have hz1 : ignoredDepth q (openSections (f.calls.take n) []) = 0 := by omega
    have hall := (ignoredDepth_eq_zero _ _).1 hz1
    have hz2 : ignoredDepth p (openSections (f.calls.take n) []) = 0 :=
      (ignoredDepth_eq_zero _ _).2 (fun c hc => List.IsPrefix.trans hpq (hall c hc))
    rw [dp1, hz2]
    rfl
  refine ⟨?_, ?_, ?_⟩
  · rw [rp, rq]
    have e : records init = [] := rfl
    rw [e, List.nil_append, List.nil_append]
    exact conditionalRecords_sublist hpq f
  · rw [OP_HAVE_DEBUG_PRINTS, OP_HAVE_DEBUG_PRINTS, decide_eq_true_iff, decide_eq_true_iff]
    exact key
  · rw [have_debug_prints_fst, have_debug_prints_fst, decide_eq_true_iff, decide_eq_true_iff]
    exact key

/-- The records of gc-minor enclosing gc-major under `PYPYLOG=gc-mi:out.log` are a
subsequence of those under `PYPYLOG=gc:out.log`. -/
theorem filter_monotone_witness :
    cstr "gc" <+: cstr "gc-mi" ∧
    (records (run (envWith "gc-mi:out.log")
        (section1 "gc-minor" (section1 "gc-major" Sections.done)).calls init)).Sublist
      (records (run (envWith "gc:out.log")
        (section1 "gc-minor" (section1 "gc-major" Sections.done)).calls init)) :=
  ⟨by decide,
   (filter_monotone (envWith "gc:out.log") (envWith "gc-mi:out.log") (cstr "gc") (cstr "gc-mi")
      (cstr "out.log") (cstr "out.log")
      (section1 "gc-minor" (section1 "gc-major" Sections.done)) 0
      (by decide) (by decide) (by decide) (by decide) (by decide)).1⟩

/-- C12. Record format: `display_startstop` makes one `fprintf` call, to
`pypy_debug_file`, with the kind and the category it was passed; for every
timestamp `t` the text of that call is `"{"`, the numeral of `t`, `"} -"`, the
kind, `"- "`, the category and a newline, where the numeral consists of
lowercase hexadecimal digits only, denotes `t mod 2^64`, is the single digit
`"0"` when that value is 0 and does not begin with `'0'` otherwise. -/
theorem record_format (env : Env) (k c : CStr) (s : State) (file : Option FILE) (t : Int) :
    (display_startstop env k c s).effects
      = s.effects ++ [Effect.fprintf s.pypy_debug_file (env.rdtsc s.effects.length) k c] ∧
    Effect.written (Effect.fprintf file t k c)
      = cstr "\x7b" ++ llx t ++ cstr "\x7d -" ++ k ++ cstr "- " ++ c ++ cstr "\n" ∧
    hexNumber 0 (llx t) = some (t % 2 ^ 64).toNat ∧
    (t % 2 ^ 64 = 0 → llx t = cstr "0") ∧
    (t % 2 ^ 64 ≠ 0 → ∀ rest : CStr, llx t ≠ cstr "0" ++ rest) := by
  obtain ⟨k1, k2, k3⟩ := llx_spec t
  refine ⟨rfl, ?_, k1, k2, k3⟩
  rw [written_fprintf]
  simp only [List.append_assoc]

/-- The start record of gc with timestamp 255 is `{ff} -start- gc`, the
numeral of the timestamp -1 is sixteen times `f`, and that of 0 is `0`. -/
theorem record_format_witness :
    Effect.written (Effect.fprintf none 255 str_start (cstr "gc"))
      = cstr "\x7bff\x7d -start- gc\n" ∧
    llx 0 = cstr "0" ∧
    hexNumber 0 (cstr "ffffffffffffffff") = some (2 ^ 64 - 1) ∧
    llx (-1) = cstr "ffffffffffffffff" :=
  ⟨((record_format (envWith "") str_start (cstr "gc") init none 255).2.1).trans (by decide),
   (record_format (envWith "") str_start (cstr "gc") init none 0).2.2.2.1 (by decide),
   by decide, by decide⟩

/-- C13. Open failure does not change tracing behaviour: for two environments
with the same `PYPYLOG` and the same timestamps, which differ at most in the
outcome of `fopen`, after every sequence of start, stop and prints-allowed
calls from the initial state the two states agree on everything but the
identity of the sink: the counter, the answers of both prints-allowed
queries, the records (kind and category) and the text of every record. -/
theorem open_failure_invisible (env1 env2 : Env) (cs : List Call)
    (hP : env1.PYPYLOG = env2.PYPYLOG) (hT : env1.rdtsc = env2.rdtsc) :
    (run env1 cs init).forgetSink = (run env2 cs init).forgetSink ∧
    (run env1 cs init).pypy_ignoring_nested_prints
      = (run env2 cs init).pypy_ignoring_nested_prints ∧
    OP_HAVE_DEBUG_PRINTS (run env1 cs init) = OP_HAVE_DEBUG_PRINTS (run env2 cs init) ∧
    (PYPY_HAVE_DEBUG_PRINTS env1 (run env1 cs init)).1
      = (PYPY_HAVE_DEBUG_PRINTS env2 (run env2 cs init)).1 ∧
    records (run env1 cs init) = records (run env2 cs init) ∧
    (run env1 cs init).effects.map Effect.written
      = (run env2 cs init).effects.map Effect.written := by
  have h := forgetSink_run hP hT cs init init rfl
  have hd := ((forgetSink_eq_iff _ _).1 h).1
  have he := ((forgetSink_eq_iff _ _).1 h).2.2.2.2
  refine ⟨h, hd, ?_, ?_, ?_, ?_⟩
  · simp only [OP_HAVE_DEBUG_PRINTS, hd]
  · simp only [have_debug_prints_fst, hd]
  · rw [← records_forgetSink (run env1 cs init), h, records_forgetSink]
  · have := congrArg (List.map Effect.written) he
    simpa [List.map_map, Function.comp_def, written_forgetSink] using this

/-- With `PYPYLOG=gc:out.log`, whether `fopen` succeeds or fails, start("gc"),
stop("gc") write the same two records, to the file in one run and to standard
error in the other. -/
theorem open_failure_invisible_witness :
    records (run (envWith "gc:out.log") [Call.start (cstr "gc"), Call.stop (cstr "gc")] init)
      = records (run ⟨some (cstr "gc:out.log"), fun _ => false, fun _ => 0⟩
          [Call.start (cstr "gc"), Call.stop (cstr "gc")] init) ∧
    (run (envWith "gc:out.log") [Call.start (cstr "gc")] init).pypy_debug_file
      = some (FILE.opened (cstr "out.log") str_w) ∧
    (run ⟨some (cstr "gc:out.log"), fun _ => false, fun _ => 0⟩
      [Call.start (cstr "gc")] init).pypy_debug_file = some FILE.stderr :=
  ⟨(open_failure_invisible (envWith "gc:out.log")
      ⟨some (cstr "gc:out.log"), fun _ => false, fun _ => 0⟩
      [Call.start (cstr "gc"), Call.stop (cstr "gc")] rfl rfl).2.2.2.2.1,
   by decide, by decide⟩

/-- C16. Prefix matcher: for all C strings `str` and `substr`, whatever the
memory after their terminating NULs holds, the loop of `startswith` returns
within `substr.length + 1` iterations; the value returned is that of
`startswith`, which is true iff `substr` is a byte-wise prefix of `str`, is
true for every `str` when `substr` is empty and false when `str` is shorter
than `substr`; and every offset read from `str` is at most the length of
`str`, the offset of its terminating NUL. -/
theorem startswith_correct (str substr : CStr) (m1 m2 : Nat → Nat) (fuel : Nat)
    (hf : substr.length < fuel) :
    (startswith_loop (byteAt str m1) (byteAt substr m2) fuel 0).map Prod.fst
      = some (startswith str substr) ∧
    (∀ r, startswith_loop (byteAt str m1) (byteAt substr m2) fuel 0 = some r →
      ∀ i ∈ r.2, i ≤ str.length) ∧
    (startswith str substr = true ↔ substr <+: str) ∧
    startswith str [] = true ∧
    (str.length < substr.length → startswith str substr = false) := by
  obtain ⟨reads, hr, hbound⟩ := startswith_loop_spec substr str m1 m2 fuel hf
  refine ⟨by rw [hr]; rfl, ?_, startswith_iff str substr, by cases str <;> rfl, ?_⟩
  · intro r hrr
    rw [hr] at hrr
    injection hrr with e
    rw [← e]
    exact hbound
  · intro hlen
    cases hs : startswith str substr with
    | false => rfl
    | true =>
      have hpre := (startswith_iff str substr).1 hs
      have := List.IsPrefix.length_le hpre
      omega

/-- The loop run on gc-minor and gc returns 1 after reading offsets 0 and 1;
run on gc and gc-minor it returns 0 at offset 2, the NUL of gc; and matching
is case-sensitive. -/
theorem startswith_correct_witness :
    startswith_loop (byteAt (cstr "gc-minor") (fun _ => 65)) (byteAt (cstr "gc") (fun _ => 65))
      3 0 = some (true, [0, 1]) ∧
    startswith_loop (byteAt (cstr "gc") (fun _ => 65)) (byteAt (cstr "gc-minor") (fun _ => 65))
      9 0 = some (false, [0, 1, 2]) ∧
    (startswith_loop (byteAt (cstr "gc-minor") (fun _ => 65)) (byteAt (cstr "gc") (fun _ => 65))
      3 0).map Prod.fst = some true ∧
    startswith (cstr "gc") (cstr "gc-minor") = false ∧
    startswith (cstr "GC") (cstr "gc") = false :=
  ⟨by decide, by decide,
   ((startswith_correct (cstr "gc-minor") (cstr "gc") (fun _ => 65) (fun _ => 65) 3
      (by decide)).1).trans (by decide),
   (startswith_correct (cstr "gc") (cstr "gc-minor") (fun _ => 65) (fun _ => 65) 9
      (by decide)).2.2.2.2 (by decide),
   by decide⟩

end PyPyDebug
